import Mathlib

/-!
# Security keypad: a shallow embedding of `main.cpp`

The program scans a 4x4 matrix keypad, collects four characters in the global
buffer `attempt`, compares them with the compiled-in `password` and reports the
verdict on a character display and on five indicator LEDs.

The embedding keeps the program's global variables and the two output data
registers it writes in a `State`, and records the operations whose order matters
(display calls, delays, row drive, stores into `attempt`, the reset of `numChars`)
in a chronological trace kept in the state.  Interrupt handlers run to completion, so each of
`c1isr` .. `c4isr` is one state transformer; one pass through the body of the
`while (true)` loop of `main` with no interrupt serviced inside it is
`main_loop`.  Interrupts serviced between two statements of the loop body are
covered by the statement-level semantics `mainStep` / `runAt`.
-/

namespace SecurityKeypad

/-! ## Constants and globals -/

/-- Length of the pass code buffers: `#define PASSLEN 5`. -/
def PASSLEN : Nat := 5

/-- Delay between keypad presses handed to `wait_us`: `#define BOUNCEDELAY 500000`. -/
def BOUNCEDELAY : Nat := 500000

/-- The C string terminator `'\0'`. -/
def NUL : Char := Char.ofNat 0

/-- The stored pass code `const char password [PASSLEN] = "0596"`: four characters and
the terminator the string literal brings with it. -/
def password : List Char := ['0', '5', '9', '6', NUL]

/-- The operations recorded in the trace. -/
inductive Event where
  /-- Source: `lcd.begin()` -/
  | lcdBegin
  /-- Source: `lcd.clear()` -/
  | lcdClear
  /-- Source: `lcd.print(text)` -/
  | lcdPrint (text : String)
  /-- Source: `lcd.setCursor(col, line)` -/
  | lcdSetCursor (col line : Nat)
  /-- Source: `thread_sleep_for(ms)` -/
  | threadSleepFor (ms : Nat)
  /-- Source: `wait_us(us)` -/
  | waitUs (us : Nat)
  /-- Source: `GPIOC->ODR = value` in the row scanner -/
  | rowDrive (value : Nat)
  /-- Source: `attempt[idx] = c` in an interrupt handler -/
  | isrStore (idx : Int) (c : Char)
  /-- Source: `attempt[idx] = '\0'` in the main loop -/
  | mainStore (idx : Int)
  /-- Source: `numChars = 0` in the main loop -/
  | countReset
  deriving DecidableEq, Repr

/-- The globals of `main.cpp`, the two output data registers it writes, and the trace
of operations performed so far. -/
structure State where
  /-- Source: `int row` -/
  row : Int
  /-- Source: `char attempt[PASSLEN]` -/
  attempt : List Char
  /-- Source: `int numChars` -/
  numChars : Int
  /-- Source: `GPIOC->ODR`, the row lines -/
  GPIOC_ODR : Nat
  /-- Source: `GPIOE->ODR`, the indicator LEDs -/
  GPIOE_ODR : Nat
  /-- operations performed so far, oldest first -/
  trace : List Event
  deriving DecidableEq, Repr

/-- Append one operation to the trace. -/
def emit (e : Event) (s : State) : State :=
  { s with trace := s.trace ++ [e] }

/-! ## Library calls -/

/-- C `strcmp` on two character arrays: walks both until the first difference or a
common terminator.  `none` when the walk leaves one of the arrays before either
happens (the C call then reads outside the object). -/
def strcmp : List Char → List Char → Option Int
  | a :: as, b :: bs =>
      if a ≠ b then some ((a.toNat : Int) - (b.toNat : Int))
      else if a = NUL then some 0
      else strcmp as bs
  | _, _ => none

/-- The text a C string routine reads from a character array: the characters before
the first terminator. -/
def cString (buf : List Char) : String :=
  String.mk (buf.takeWhile (fun c => c ≠ NUL))

/-- Source: `lcd.begin()` -/
def lcd_begin (s : State) : State := emit .lcdBegin s

/-- Source: `lcd.clear()` -/
def lcd_clear (s : State) : State := emit .lcdClear s

/-- Source: `lcd.print(text)` -/
def lcd_print (text : String) (s : State) : State := emit (.lcdPrint text) s

/-- Source: `lcd.setCursor(col, line)` -/
def lcd_setCursor (col line : Nat) (s : State) : State := emit (.lcdSetCursor col line) s

/-- Source: `thread_sleep_for(ms)` -/
def thread_sleep_for (ms : Nat) (s : State) : State := emit (.threadSleepFor ms) s

/-- Source: `wait_us(us)` -/
def wait_us (us : Nat) (s : State) : State := emit (.waitUs us) s

/-! ## `lightLEDs` -/

/-- Source: `void lightLEDs (int numEntered)`, lines 165-196. -/
def lightLEDs (numEntered : Int) (s : State) : State :=
  let s := { s with GPIOE_ODR := s.GPIOE_ODR &&& 0x83 }
  if numEntered = 0 then
    { s with GPIOE_ODR := s.GPIOE_ODR ||| 0x4 }
  else if numEntered = 1 then
    { s with GPIOE_ODR := s.GPIOE_ODR ||| 0x8 }
  else if numEntered = 2 then
    { s with GPIOE_ODR := s.GPIOE_ODR ||| 0x10 }
  else
    if strcmp s.attempt password = some 0 then
      { s with GPIOE_ODR := s.GPIOE_ODR ||| 0x20 }
    else
      { s with GPIOE_ODR := s.GPIOE_ODR ||| 0x40 }

/-! ## The four column handlers -/

/-- The handlers' statement `attempt[numChars] = c`.  The store is recorded in the trace
with the index it uses.  The modelled array holds `PASSLEN` elements and a store whose
index lies outside it leaves the array as it is: where such a store lands in the C
program depends on how the globals are laid out, which the source does not fix, so from
such a store on the fields of the state no longer describe the program and only the
recorded index does.  `storeInRange` tells when the store of a handler run stays inside
the array. -/
def storeAttempt (idx : Int) (c : Char) (s : State) : State :=
  emit (.isrStore idx c)
    { s with attempt := if 0 ≤ idx then s.attempt.set idx.toNat c else s.attempt }

/-- Source: `void c1isr(void)`, lines 199-224: the handler for `*`, `7`, `4`, `1`. -/
def c1isr (s : State) : State :=
  let s :=
    if s.row = 0 then lightLEDs s.numChars (storeAttempt s.numChars '*' s)
    else if s.row = 1 then lightLEDs s.numChars (storeAttempt s.numChars '7' s)
    else if s.row = 2 then lightLEDs s.numChars (storeAttempt s.numChars '4' s)
    else if s.row = 3 then lightLEDs s.numChars (storeAttempt s.numChars '1' s)
    else s
  let s := wait_us BOUNCEDELAY s
  { s with numChars := s.numChars + 1 }

/-- Source: `void c2isr(void)`, lines 227-255: the handler for `D`, `C`, `B`, `A`. -/
def c2isr (s : State) : State :=
  let s :=
    if s.row = 0 then lightLEDs s.numChars (storeAttempt s.numChars 'D' s)
    else if s.row = 1 then lightLEDs s.numChars (storeAttempt s.numChars 'C' s)
    else if s.row = 2 then lightLEDs s.numChars (storeAttempt s.numChars 'B' s)
    else if s.row = 3 then lightLEDs s.numChars (storeAttempt s.numChars 'A' s)
    else s
  let s := wait_us BOUNCEDELAY s
  { s with numChars := s.numChars + 1 }

/-- Source: `void c3isr(void)`, lines 257-282. -/
def c3isr (s : State) : State :=
  let s :=
    if s.row = 0 then lightLEDs s.numChars (storeAttempt s.numChars '0' s)
    else if s.row = 1 then lightLEDs s.numChars (storeAttempt s.numChars '8' s)
    else if s.row = 2 then lightLEDs s.numChars (storeAttempt s.numChars '5' s)
    else if s.row = 3 then lightLEDs s.numChars (storeAttempt s.numChars '2' s)
    else s
  let s := wait_us BOUNCEDELAY s
  { s with numChars := s.numChars + 1 }

/-- Source: `void c4isr(void)`, lines 284-309. -/
def c4isr (s : State) : State :=
  let s :=
    if s.row = 0 then lightLEDs s.numChars (storeAttempt s.numChars '#' s)
    else if s.row = 1 then lightLEDs s.numChars (storeAttempt s.numChars '9' s)
    else if s.row = 2 then lightLEDs s.numChars (storeAttempt s.numChars '6' s)
    else if s.row = 3 then lightLEDs s.numChars (storeAttempt s.numChars '3' s)
    else s
  let s := wait_us BOUNCEDELAY s
  { s with numChars := s.numChars + 1 }

/-! ## `main` -/

/-- The globals as the C runtime initialises them (`row = 0`, `numChars = 0`, `attempt`
zero-filled), with both output data registers clear and nothing done yet. -/
def resetState : State :=
  { row := 0
    attempt := List.replicate PASSLEN NUL
    numChars := 0
    GPIOC_ODR := 0
    GPIOE_ODR := 0
    trace := [] }

/-- The part of `main` before the loop that touches the modelled state, lines 83-84:
`lcd.begin(); lcd.print("Enter passcode:");`. -/
def main_init (s : State) : State :=
  lcd_print "Enter passcode:" (lcd_begin s)

/-- The state in which `main` enters its loop for the first time. -/
def powerOn : State := main_init resetState

/-- Source: `GPIOC->ODR = value` -/
def driveRow (value : Nat) (s : State) : State :=
  emit (.rowDrive value) { s with GPIOC_ODR := value }

/-- The row scanner at the top of the loop body, lines 92-117. -/
def scanRow (s : State) : State :=
  if s.row = 0 then driveRow 0x400 { s with row := 1 }
  else if s.row = 1 then driveRow 0x800 { s with row := 2 }
  else if s.row = 2 then driveRow 0x200 { s with row := 3 }
  else if s.row = 3 then driveRow 0x100 { s with row := 0 }
  else s

/-- Lines 122-138: terminate and print the attempt, reset the count, print the verdict. -/
def evalBegin (s : State) : State :=
  let s := emit (.mainStore ((PASSLEN : Int) - 1))
    { s with attempt := s.attempt.set (PASSLEN - 1) NUL }
  let s := lcd_clear s
  let s := lcd_print (cString s.attempt) s
  let s := emit .countReset { s with numChars := 0 }
  if strcmp s.attempt password = some 0 then
    lcd_print "Unlocked!" (lcd_setCursor 0 1 s)
  else
    lcd_print "Locked!" (lcd_setCursor 0 1 s)

/-- Lines 141-143: prompt again and switch the LEDs off. -/
def evalEnd (s : State) : State :=
  let s := lcd_clear s
  let s := lcd_print "Enter passcode:" s
  { s with GPIOE_ODR := s.GPIOE_ODR &&& 0x83 }

/-- The body of `if(numChars == 4)`, lines 122-143. -/
def evaluate (s : State) : State :=
  evalEnd (thread_sleep_for 5000 (evalBegin s))

/-- One pass through the body of `while (true)`, lines 89-148. -/
def main_loop (s : State) : State :=
  let s := scanRow s
  let s := if s.numChars = 4 then evaluate s else s
  thread_sleep_for 50 s

/-- One pass through the loop body during which the interrupt handler `irq` is serviced
while the main thread is inside `thread_sleep_for(5000)`. -/
def main_loop_irq (irq : State → State) (s : State) : State :=
  let s := scanRow s
  let s := if s.numChars = 4 then evalEnd (irq (thread_sleep_for 5000 (evalBegin s))) else s
  thread_sleep_for 50 s

/-! ## Executions -/

/-- The four column lines, each with its own handler (`int1` .. `int4`). -/
inductive Col where
  | c1 | c2 | c3 | c4
  deriving DecidableEq, Repr, Fintype

/-- The handler registered for a column line, lines 71-74. -/
def isr : Col → State → State
  | .c1 => c1isr
  | .c2 => c2isr
  | .c3 => c3isr
  | .c4 => c4isr

/-- What can happen next: the main loop completes a pass, or a column edge is serviced. -/
inductive Action where
  | loop
  | key (c : Col)
  deriving DecidableEq, Repr

/-- The effect of one action. -/
def step (s : State) : Action → State
  | .loop => main_loop s
  | .key c => isr c s

/-- The state after a sequence of actions. -/
def run (acts : List Action) (s : State) : State :=
  acts.foldl step s

/-- States the program is in after power-on, for some sequence of key events that each
fall between two loop passes.  Every such state is a state of the program as long as the
stores of the sequence stay inside the array; the program has more states than these,
because a key event can also be serviced inside a loop pass: see `ReachableAt`. -/
def Reachable (s : State) : Prop :=
  ∃ acts : List Action, run acts powerOn = s

/-! ## Statement-level executions -/

/-- Positions of the main thread inside the loop body, named after the source line of
the statement executed next. -/
inductive Pc where
  | l92 | l95 | l96 | l102 | l103 | l109 | l110 | l115 | l116
  | l120 | l122 | l123 | l124 | l125 | l128 | l130 | l131 | l136 | l137
  | l140 | l141 | l142 | l143 | l148
  deriving DecidableEq, Repr

/-- One statement of the loop body of `main`, lines 92-148: the position after it and
its effect on the state.  The tests of the `if` chains change nothing and only choose
the next position. -/
def mainStep : Pc → State → Pc × State
  | .l92, s =>
      (if s.row = 0 then .l95 else if s.row = 1 then .l102 else if s.row = 2 then .l109
        else if s.row = 3 then .l115 else .l120, s)
  | .l95, s => (.l96, { s with row := 1 })
  | .l96, s => (.l120, driveRow 0x400 s)
  | .l102, s => (.l103, { s with row := 2 })
  | .l103, s => (.l120, driveRow 0x800 s)
  | .l109, s => (.l110, { s with row := 3 })
  | .l110, s => (.l120, driveRow 0x200 s)
  | .l115, s => (.l116, { s with row := 0 })
  | .l116, s => (.l120, driveRow 0x100 s)
  | .l120, s => (if s.numChars = 4 then .l122 else .l148, s)
  | .l122, s =>
      (.l123, emit (.mainStore ((PASSLEN : Int) - 1))
        { s with attempt := s.attempt.set (PASSLEN - 1) NUL })
  | .l123, s => (.l124, lcd_clear s)
  | .l124, s => (.l125, lcd_print (cString s.attempt) s)
  | .l125, s => (.l128, emit .countReset { s with numChars := 0 })
  | .l128, s => (if strcmp s.attempt password = some 0 then .l130 else .l136, s)
  | .l130, s => (.l131, lcd_setCursor 0 1 s)
  | .l131, s => (.l140, lcd_print "Unlocked!" s)
  | .l136, s => (.l137, lcd_setCursor 0 1 s)
  | .l137, s => (.l140, lcd_print "Locked!" s)
  | .l140, s => (.l141, thread_sleep_for 5000 s)
  | .l141, s => (.l142, lcd_clear s)
  | .l142, s => (.l143, lcd_print "Enter passcode:" s)
  | .l143, s => (.l148, { s with GPIOE_ODR := s.GPIOE_ODR &&& 0x83 })
  | .l148, s => (.l92, thread_sleep_for 50 s)

/-- What can happen next at statement level: the main thread executes its next
statement, or the edge of a column line is serviced before it. -/
inductive Micro where
  | stmt
  | irq (c : Col)
  deriving DecidableEq, Repr

/-- The effect of one statement-level step; a handler leaves the position of the main
thread where it is. -/
def microStep (cfg : Pc × State) : Micro → Pc × State
  | .stmt => mainStep cfg.1 cfg.2
  | .irq c => (cfg.1, isr c cfg.2)

/-- The position and state after a sequence of statement-level steps. -/
def runAt (ms : List Micro) (cfg : Pc × State) : Pc × State :=
  ms.foldl microStep cfg

/-- The program as it enters the loop for the first time. -/
def start : Pc × State := (.l92, powerOn)

/-- Positions and states the program can be in after power-on, with key events serviced
between any two statements of the loop body; each statement and each handler run is
taken whole.  `storesInRange` singles out the executions whose stores all stay inside
the array. -/
def ReachableAt (cfg : Pc × State) : Prop :=
  ∃ ms : List Micro, runAt ms start = cfg

/-- Whether the store `attempt[numChars] = c` of a handler run in this state stays inside
the array. -/
def storeInRange (s : State) : Bool :=
  decide (0 ≤ s.numChars ∧ s.numChars < (PASSLEN : Int))

/-- Whether every handler run of a sequence of statement-level steps stores inside the
array, so that the sequence is an execution whose effect the source fixes. -/
def storesInRange : List Micro → Pc × State → Bool
  | [], _ => true
  | .stmt :: ms, cfg => storesInRange ms (mainStep cfg.1 cfg.2)
  | .irq c :: ms, cfg => storeInRange cfg.2 && storesInRange ms (cfg.1, isr c cfg.2)

/-- The statement-level steps of an execution in which a fifth edge is serviced inside
an evaluation: the key 0 four times; the loop pass up to and including line 124; an edge
on the third column, with the scanner at row 1. -/
def edgeBeforeReset : List Micro :=
  [.irq .c3, .irq .c3, .irq .c3, .irq .c3] ++ List.replicate 7 .stmt ++ [.irq .c3]

/-- The execution `edgeBeforeReset` continued: the rest of that loop pass; then, each at
its row, the keys 0, 5 and 9 with idle loop passes in between, and one more idle pass
that brings the scanner to the row of the key 6. -/
def edgeInsideEvaluation : List Micro :=
  edgeBeforeReset ++ List.replicate 9 .stmt ++
  List.replicate 15 .stmt ++ [.irq .c3] ++
  List.replicate 10 .stmt ++ [.irq .c3] ++
  List.replicate 15 .stmt ++ [.irq .c4] ++
  List.replicate 5 .stmt

/-! ## Observations -/

/-- Whether an operation is a call on the display. -/
def Event.isDisplay : Event → Bool
  | .lcdBegin => true
  | .lcdClear => true
  | .lcdPrint _ => true
  | .lcdSetCursor _ _ => true
  | _ => false

/-- The display calls among the operations performed between state `s` and a later
state `t`. -/
def displayedSince (s t : State) : List Event :=
  (t.trace.drop s.trace.length).filter Event.isDisplay

/-- The operations performed between state `s` and a later state `t`. -/
def eventsSince (s t : State) : List Event :=
  t.trace.drop s.trace.length

/-- A key event fired with the scanner at `row`: the handler of column `c` runs in `s`
with `row` as the active row. -/
def press (c : Col) (row : Int) (s : State) : State :=
  isr c { s with row := row }

/-- The character the handler of column `c` stores when it fires at `row`: the content
of slot 0 after the handler has run from power-on (still the terminator when the handler
took none of its four row branches). -/
def storedChar (c : Col) (row : Int) : Option Char :=
  (press c row powerOn).attempt.get? 0

/-- The five indicator bits of `GPIOE->ODR`: white, yellow, blue, green, red. -/
def indicatorBits : List Nat := [0x4, 0x8, 0x10, 0x20, 0x40]

/-- The indicator bits that are set in a register value. -/
def litIndicators (odr : Nat) : List Nat :=
  indicatorBits.filter (fun b => odr &&& b ≠ 0)

/-- Whether an operation belongs to an evaluation, lines 122-143: a display call, the
terminator store, the reset of the count or the 5000 ms pause. -/
def Event.isEvaluation : Event → Bool
  | .lcdClear => true
  | .lcdPrint _ => true
  | .lcdSetCursor _ _ => true
  | .mainStore _ => true
  | .countReset => true
  | .threadSleepFor ms => decide (ms = 5000)
  | _ => false

/-! ## Basic facts about the operations -/

@[simp] theorem emit_row (e : Event) (s : State) : (emit e s).row = s.row := rfl
@[simp] theorem emit_attempt (e : Event) (s : State) : (emit e s).attempt = s.attempt := rfl
@[simp] theorem emit_numChars (e : Event) (s : State) : (emit e s).numChars = s.numChars := rfl
@[simp] theorem emit_GPIOC (e : Event) (s : State) : (emit e s).GPIOC_ODR = s.GPIOC_ODR := rfl
@[simp] theorem emit_GPIOE (e : Event) (s : State) : (emit e s).GPIOE_ODR = s.GPIOE_ODR := rfl
@[simp] theorem emit_trace (e : Event) (s : State) : (emit e s).trace = s.trace ++ [e] := rfl

@[simp] theorem lightLEDs_row (n : Int) (s : State) : (lightLEDs n s).row = s.row := by
  unfold lightLEDs; simp only []; split_ifs <;> rfl
@[simp] theorem lightLEDs_attempt (n : Int) (s : State) :
    (lightLEDs n s).attempt = s.attempt := by
  unfold lightLEDs; simp only []; split_ifs <;> rfl
@[simp] theorem lightLEDs_numChars (n : Int) (s : State) :
    (lightLEDs n s).numChars = s.numChars := by
  unfold lightLEDs; simp only []; split_ifs <;> rfl
@[simp] theorem lightLEDs_GPIOC (n : Int) (s : State) :
    (lightLEDs n s).GPIOC_ODR = s.GPIOC_ODR := by
  unfold lightLEDs; simp only []; split_ifs <;> rfl
@[simp] theorem lightLEDs_trace (n : Int) (s : State) : (lightLEDs n s).trace = s.trace := by
  unfold lightLEDs; simp only []; split_ifs <;> rfl

/-- Different characters have different codes, so the difference `strcmp` returns for
them is not zero. -/
theorem toNat_sub_ne_zero {a b : Char} (h : a ≠ b) :
    ((a.toNat : Int) - (b.toNat : Int)) ≠ 0 := by
  intro h0
  apply h
  have e : a.toNat = b.toNat := by omega
  rw [← Char.ofNat_toNat a, e, Char.ofNat_toNat]

/-- One step of `strcmp`: the result is zero exactly when the heads agree and either
both strings end here or the tails compare equal. -/
theorem strcmp_cons_eq_zero (a b : Char) (as bs : List Char) :
    strcmp (a :: as) (b :: bs) = some 0 ↔ a = b ∧ (a = NUL ∨ strcmp as bs = some 0) := by
  rw [strcmp]
  by_cases hab : a = b
  · by_cases hn : a = NUL
    · subst hab; simp [hn]
    · subst hab; simp [hn]
  · simp [hab, toNat_sub_ne_zero hab]

/-- The comparison with the stored pass code on a terminated five-character buffer. -/
theorem strcmp_password_iff (a0 a1 a2 a3 : Char) :
    strcmp [a0, a1, a2, a3, NUL] password = some 0 ↔
      a0 = '0' ∧ a1 = '5' ∧ a2 = '9' ∧ a3 = '6' := by
  have h0 : ('0' : Char) ≠ NUL := by decide
  have h5 : ('5' : Char) ≠ NUL := by decide
  have h9 : ('9' : Char) ≠ NUL := by decide
  have h6 : ('6' : Char) ≠ NUL := by decide
  simp only [password, strcmp_cons_eq_zero]
  constructor
  · rintro ⟨e0, h⟩
    subst e0
    rcases h with h | ⟨e1, h⟩
    · exact absurd h h0
    subst e1
    rcases h with h | ⟨e2, h⟩
    · exact absurd h h5
    subst e2
    rcases h with h | ⟨e3, h⟩
    · exact absurd h h9
    exact ⟨rfl, rfl, rfl, e3⟩
  · rintro ⟨e0, e1, e2, e3⟩
    subst e0 e1 e2 e3
    simp

/-- The state a handler leaves behind when it fires at one of the four rows: it stores
its character at index `numChars`, lights an indicator, waits and counts the key. -/
theorem isr_effect (c : Col) (s : State)
    (hr : s.row = 0 ∨ s.row = 1 ∨ s.row = 2 ∨ s.row = 3) :
    ∃ k : Char, storedChar c s.row = some k ∧ k ≠ NUL ∧
      isr c s =
        { lightLEDs s.numChars (storeAttempt s.numChars k s) with
          numChars := s.numChars + 1
          trace := s.trace ++ [.isrStore s.numChars k, .waitUs BOUNCEDELAY] } := by
  rcases hr with h | h | h | h <;> cases c <;>
    exact ⟨_, by rw [h]; exact rfl, by decide, by
      simp [isr, c1isr, c2isr, c3isr, c4isr, h, wait_us, emit, storeAttempt]⟩

/-- Every handler counts the key, whatever the row. -/
theorem isr_numChars (c : Col) (s : State) : (isr c s).numChars = s.numChars + 1 := by
  cases c <;> simp only [isr, c1isr, c2isr, c3isr, c4isr] <;> split_ifs <;>
    simp [wait_us, storeAttempt]

/-- No handler changes the active row. -/
theorem isr_row (c : Col) (s : State) : (isr c s).row = s.row := by
  cases c <;> simp only [isr, c1isr, c2isr, c3isr, c4isr] <;> split_ifs <;>
    simp [wait_us, storeAttempt]

/-- The fields of the state after a key event at one of the four rows, with the entry
count given as a natural number. -/
theorem press_fields (c : Col) (r : Int) (s : State) (n : Nat)
    (hr : r = 0 ∨ r = 1 ∨ r = 2 ∨ r = 3) (hn : s.numChars = n) :
    ∃ k : Char, storedChar c r = some k ∧ k ≠ NUL ∧
      (press c r s).attempt = s.attempt.set n k ∧
      (press c r s).numChars = ((n + 1 : Nat) : Int) ∧
      (press c r s).row = r ∧
      (press c r s).GPIOC_ODR = s.GPIOC_ODR ∧
      (press c r s).trace = s.trace ++ [.isrStore n k, .waitUs BOUNCEDELAY] := by
  obtain ⟨k, hk, hnul, e⟩ := isr_effect c { s with row := r } hr
  refine ⟨k, hk, hnul, ?_⟩
  unfold press
  rw [e]
  simp [storeAttempt, hn]

/-- The row scanner touches neither the buffer, nor the count, nor the indicators. -/
theorem scanRow_frame (s : State) :
    (scanRow s).attempt = s.attempt ∧ (scanRow s).numChars = s.numChars ∧
      (scanRow s).GPIOE_ODR = s.GPIOE_ODR := by
  unfold scanRow driveRow
  split_ifs <;> simp

/-- The row scanner performs at most one operation, a row drive. -/
theorem scanRow_trace (s : State) :
    ∃ evs : List Event, (scanRow s).trace = s.trace ++ evs ∧
      evs.filter Event.isDisplay = [] ∧ evs.length ≤ 1 := by
  unfold scanRow driveRow
  split_ifs
  · exact ⟨[.rowDrive 0x400], by simp, by simp [Event.isDisplay], by simp⟩
  · exact ⟨[.rowDrive 0x800], by simp, by simp [Event.isDisplay], by simp⟩
  · exact ⟨[.rowDrive 0x200], by simp, by simp [Event.isDisplay], by simp⟩
  · exact ⟨[.rowDrive 0x100], by simp, by simp [Event.isDisplay], by simp⟩
  · exact ⟨[], by simp, by simp, by simp⟩

/-- The operations of an evaluation, lines 122-143, in the order they are performed. -/
theorem evaluate_trace (s : State) :
    (evaluate s).trace = s.trace ++
      [.mainStore 4, .lcdClear, .lcdPrint (cString (s.attempt.set 4 NUL)), .countReset,
        .lcdSetCursor 0 1,
        .lcdPrint (if strcmp (s.attempt.set 4 NUL) password = some 0
          then "Unlocked!" else "Locked!"),
        .threadSleepFor 5000, .lcdClear, .lcdPrint "Enter passcode:"] := by
  unfold evaluate evalEnd evalBegin
  by_cases h : strcmp (s.attempt.set 4 NUL) password = some 0
  · simp [h, PASSLEN, lcd_clear, lcd_print, lcd_setCursor, thread_sleep_for]
  · simp [h, PASSLEN, lcd_clear, lcd_print, lcd_setCursor, thread_sleep_for]

/-- The display calls of a loop pass that finds four characters entered. -/
theorem displayedSince_main_loop_eval (s : State) (h4 : s.numChars = 4) :
    displayedSince s (main_loop s) =
      [.lcdClear, .lcdPrint (cString (s.attempt.set 4 NUL)), .lcdSetCursor 0 1,
        .lcdPrint (if strcmp (s.attempt.set 4 NUL) password = some 0
          then "Unlocked!" else "Locked!"),
        .lcdClear, .lcdPrint "Enter passcode:"] := by
  obtain ⟨ha, hn, -⟩ := scanRow_frame s
  obtain ⟨evs, ht, hd, -⟩ := scanRow_trace s
  unfold displayedSince main_loop
  simp only [hn, h4, if_true, thread_sleep_for, emit_trace, evaluate_trace, ha, ht]
  simp [List.append_assoc, List.filter_append, hd, Event.isDisplay]

/-- An evaluation leaves the active row and the row lines alone. -/
theorem evaluate_row (s : State) :
    (evaluate s).row = s.row ∧ (evaluate s).GPIOC_ODR = s.GPIOC_ODR := by
  unfold evaluate evalEnd evalBegin
  simp only [lcd_clear, lcd_print, lcd_setCursor, thread_sleep_for]
  split_ifs <;> simp

/-- Only the row scanner of a loop pass changes the active row and the row lines. -/
theorem main_loop_row (s : State) :
    (main_loop s).row = (scanRow s).row ∧
      (main_loop s).GPIOC_ODR = (scanRow s).GPIOC_ODR := by
  unfold main_loop
  simp only [thread_sleep_for, emit_row, emit_GPIOC]
  split_ifs
  · exact evaluate_row _
  · exact ⟨rfl, rfl⟩

/-- The row scanner on a state whose row is one of the four. -/
theorem scanRow_row (s : State) (hr : s.row = 0 ∨ s.row = 1 ∨ s.row = 2 ∨ s.row = 3) :
    (scanRow s).row = (s.row + 1) % 4 ∧
      (((scanRow s).row = 0 ∧ (scanRow s).GPIOC_ODR = 0x100) ∨
       ((scanRow s).row = 1 ∧ (scanRow s).GPIOC_ODR = 0x400) ∨
       ((scanRow s).row = 2 ∧ (scanRow s).GPIOC_ODR = 0x800) ∨
       ((scanRow s).row = 3 ∧ (scanRow s).GPIOC_ODR = 0x200)) := by
  unfold scanRow driveRow
  rcases hr with h | h | h | h <;> simp [h]

/-- Every number of loop passes advances the row cyclically. -/
theorem iterate_main_loop_row (n : Nat) (s : State)
    (hr : s.row = 0 ∨ s.row = 1 ∨ s.row = 2 ∨ s.row = 3) :
    (main_loop^[n] s).row = (s.row + (n : Int)) % 4 := by
  induction n generalizing s with
  | zero => rcases hr with h | h | h | h <;> simp [h]
  | succ n ih =>
    have h1 : (main_loop s).row = (s.row + 1) % 4 := by
      rw [(main_loop_row s).1, (scanRow_row s hr).1]
    have hr1 : (main_loop s).row = 0 ∨ (main_loop s).row = 1 ∨ (main_loop s).row = 2 ∨
        (main_loop s).row = 3 := by
      rw [h1]; omega
    rw [Function.iterate_succ_apply, ih _ hr1, h1]
    push_cast
    omega

/-- On one of the four rows the scanner performs exactly one operation: it drives the
row lines with the value it leaves in `GPIOC->ODR`. -/
theorem scanRow_drive (s : State) (hr : s.row = 0 ∨ s.row = 1 ∨ s.row = 2 ∨ s.row = 3) :
    (scanRow s).trace = s.trace ++ [.rowDrive (scanRow s).GPIOC_ODR] := by
  unfold scanRow driveRow
  rcases hr with h | h | h | h <;> simp [h]

/-- A loop pass only adds operations after those of its row scan. -/
theorem main_loop_trace_scan (s : State) :
    ∃ evs : List Event, (main_loop s).trace = (scanRow s).trace ++ evs := by
  unfold main_loop
  simp only [thread_sleep_for, emit_trace]
  split_ifs
  · rw [evaluate_trace]
    exact ⟨_, List.append_assoc _ _ _⟩
  · exact ⟨_, rfl⟩

/-- A register value with the single bit `k` set has no other bit set. -/
theorem testBit_two_pow_iff (k i : Nat) : (2 ^ k).testBit i = true ↔ i = k := by
  rw [Nat.testBit_two_pow]
  simp [eq_comm]

/-- Clearing with mask 0x83 and then setting one indicator bit leaves exactly that
indicator bit set, whatever the register held before. -/
theorem litIndicators_clear_set (x m : Nat) (hm : m ∈ indicatorBits) :
    litIndicators ((x &&& 0x83) ||| m) = [m] := by
  have key : ∀ b : Nat, 0x83 &&& b = 0 → ((x &&& 0x83) ||| m) &&& b = m &&& b := by
    intro b hb
    rw [Nat.and_distrib_right, Nat.and_assoc, hb, Nat.and_zero, Nat.zero_or]
  have e4 := key 0x4 (by decide)
  have e8 := key 0x8 (by decide)
  have e16 := key 0x10 (by decide)
  have e32 := key 0x20 (by decide)
  have e64 := key 0x40 (by decide)
  simp only [litIndicators, indicatorBits, List.filter, e4, e8, e16, e32, e64]
  simp only [indicatorBits, List.mem_cons, List.mem_singleton, List.not_mem_nil,
    or_false] at hm
  rcases hm with rfl | rfl | rfl | rfl | rfl <;> decide

/-- The register value `lightLEDs` leaves: the old value masked with 0x83, with one
indicator bit set. -/
theorem lightLEDs_GPIOE (n : Int) (s : State) :
    (lightLEDs n s).GPIOE_ODR = (s.GPIOE_ODR &&& 0x83) |||
      (if n = 0 then 0x4 else if n = 1 then 0x8 else if n = 2 then 0x10
        else if strcmp s.attempt password = some 0 then 0x20 else 0x40) := by
  unfold lightLEDs
  simp only []
  split_ifs <;> rfl

/-- The buffer and the count after an evaluation. -/
theorem evaluate_fields (s : State) :
    (evaluate s).attempt = s.attempt.set 4 NUL ∧ (evaluate s).numChars = 0 := by
  unfold evaluate evalEnd evalBegin
  simp only [lcd_clear, lcd_print, lcd_setCursor, thread_sleep_for, PASSLEN]
  split_ifs <;> simp

/-- A five-element list, spelled out. -/
theorem list_length_five (l : List Char) (h : l.length = 5) :
    ∃ a b c d e : Char, l = [a, b, c, d, e] := by
  rcases l with _ | ⟨a, _ | ⟨b, _ | ⟨c, _ | ⟨d, _ | ⟨e, _ | ⟨f, l⟩⟩⟩⟩⟩⟩ <;>
    simp at h
  exact ⟨a, b, c, d, e, rfl⟩

/-- The text read from a buffer of at most five characters is none of the longer texts. -/
theorem cString_ne_of_length (l : List Char) (t : String) (hl : l.length ≤ 5)
    (ht : 5 < t.length) : cString l ≠ t := by
  intro h
  have h1 : (cString l).length ≤ l.length := by
    unfold cString
    rw [String.length_mk]
    exact (List.takeWhile_sublist _).length_le
  rw [h] at h1
  omega

/-- The display calls of the loop pass that follows four key events, from any state with
an empty count and a five-element buffer: they depend on the four stored characters
only. -/
theorem entry_cycle_display (s : State) (x1 x2 x3 x4 : Col) (r1 r2 r3 r4 : Int)
    (h1 : r1 = 0 ∨ r1 = 1 ∨ r1 = 2 ∨ r1 = 3) (h2 : r2 = 0 ∨ r2 = 1 ∨ r2 = 2 ∨ r2 = 3)
    (h3 : r3 = 0 ∨ r3 = 1 ∨ r3 = 2 ∨ r3 = 3) (h4 : r4 = 0 ∨ r4 = 1 ∨ r4 = 2 ∨ r4 = 3)
    (hn : s.numChars = 0) (hl : s.attempt.length = 5) :
    ∃ k1 k2 k3 k4 : Char,
      storedChar x1 r1 = some k1 ∧ storedChar x2 r2 = some k2 ∧
      storedChar x3 r3 = some k3 ∧ storedChar x4 r4 = some k4 ∧
      displayedSince (press x4 r4 (press x3 r3 (press x2 r2 (press x1 r1 s))))
          (main_loop (press x4 r4 (press x3 r3 (press x2 r2 (press x1 r1 s))))) =
        [.lcdClear, .lcdPrint (String.mk [k1, k2, k3, k4]), .lcdSetCursor 0 1,
          .lcdPrint (if [k1, k2, k3, k4] = ['0', '5', '9', '6']
            then "Unlocked!" else "Locked!"),
          .lcdClear, .lcdPrint "Enter passcode:"] := by
  obtain ⟨a0, a1, a2, a3, a4, ha⟩ := list_length_five s.attempt hl
  obtain ⟨k1, hk1, n1, e1, m1, -⟩ := press_fields x1 r1 s 0 h1 hn
  obtain ⟨k2, hk2, n2, e2, m2, -⟩ := press_fields x2 r2 _ 1 h2 m1
  obtain ⟨k3, hk3, n3, e3, m3, -⟩ := press_fields x3 r3 _ 2 h3 m2
  obtain ⟨k4, hk4, n4, e4, m4, -⟩ := press_fields x4 r4 _ 3 h4 m3
  refine ⟨k1, k2, k3, k4, hk1, hk2, hk3, hk4, ?_⟩
  rw [displayedSince_main_loop_eval _ m4, e4, e3, e2, e1, ha]
  simp [cString, strcmp_password_iff, n1, n2, n3, n4]

/-- A register value masked with 0x83 has no indicator bit set. -/
theorem litIndicators_clear (x : Nat) : litIndicators (x &&& 0x83) = [] := by
  have key : ∀ b : Nat, 0x83 &&& b = 0 → (x &&& 0x83) &&& b = 0 := by
    intro b hb
    rw [Nat.and_assoc, hb, Nat.and_zero]
  have e4 := key 0x4 (by decide)
  have e8 := key 0x8 (by decide)
  have e16 := key 0x10 (by decide)
  have e32 := key 0x20 (by decide)
  have e64 := key 0x40 (by decide)
  simp [litIndicators, indicatorBits, List.filter, e4, e8, e16, e32, e64]

/-- The indicator register after an evaluation: what the evaluation found, masked. -/
theorem evaluate_GPIOE (s : State) : (evaluate s).GPIOE_ODR = s.GPIOE_ODR &&& 0x83 := by
  unfold evaluate evalEnd evalBegin
  simp only [lcd_clear, lcd_print, lcd_setCursor, thread_sleep_for]
  split_ifs <;> simp

/-- A loop pass that does not evaluate changes the state through its row scan and its
50 ms pause only. -/
theorem main_loop_idle (s : State) (h : s.numChars ≠ 4) :
    main_loop s = thread_sleep_for 50 (scanRow s) := by
  unfold main_loop
  simp [(scanRow_frame s).2.1, h]

/-- The buffer after a loop pass: untouched, or with the terminator written in slot 4. -/
theorem main_loop_attempt (s : State) :
    (main_loop s).attempt = s.attempt ∨ (main_loop s).attempt = s.attempt.set 4 NUL := by
  obtain ⟨ha, -, -⟩ := scanRow_frame s
  unfold main_loop
  simp only [thread_sleep_for, emit_attempt]
  split_ifs
  · right; rw [(evaluate_fields _).1, ha]
  · left; exact ha

/-- The operations of a loop pass that does not evaluate: none belongs to an evaluation
or is a display call. -/
theorem main_loop_idle_trace (s : State) (h : s.numChars ≠ 4) :
    ∃ evs : List Event, (main_loop s).trace = s.trace ++ evs ∧
      evs.filter (fun e => e.isEvaluation || e.isDisplay) = [] := by
  rw [main_loop_idle s h]
  unfold scanRow driveRow thread_sleep_for
  split_ifs
  · exact ⟨[.rowDrive 0x400, .threadSleepFor 50], by simp, by simp [Event.isEvaluation, Event.isDisplay]⟩
  · exact ⟨[.rowDrive 0x800, .threadSleepFor 50], by simp, by simp [Event.isEvaluation, Event.isDisplay]⟩
  · exact ⟨[.rowDrive 0x200, .threadSleepFor 50], by simp, by simp [Event.isEvaluation, Event.isDisplay]⟩
  · exact ⟨[.rowDrive 0x100, .threadSleepFor 50], by simp, by simp [Event.isEvaluation, Event.isDisplay]⟩
  · exact ⟨[.threadSleepFor 50], by simp, by simp [Event.isEvaluation, Event.isDisplay]⟩

/-- The indicator register after a key event: untouched when no row branch is taken,
otherwise masked with 0x83 and one indicator bit set. -/
theorem isr_GPIOE (c : Col) (s : State) :
    (isr c s).GPIOE_ODR = s.GPIOE_ODR ∨
      ∃ m ∈ indicatorBits, (isr c s).GPIOE_ODR = (s.GPIOE_ODR &&& 0x83) ||| m := by
  by_cases hr : s.row = 0 ∨ s.row = 1 ∨ s.row = 2 ∨ s.row = 3
  · right
    obtain ⟨k, -, -, e⟩ := isr_effect c s hr
    have hg : (storeAttempt s.numChars k s).GPIOE_ODR = s.GPIOE_ODR := rfl
    rw [e]
    simp only [lightLEDs_GPIOE, hg]
    refine ⟨_, ?_, rfl⟩
    split_ifs <;> decide
  · left
    have h0 : ¬ s.row = 0 := fun h => hr (Or.inl h)
    have h1 : ¬ s.row = 1 := fun h => hr (Or.inr (Or.inl h))
    have h2 : ¬ s.row = 2 := fun h => hr (Or.inr (Or.inr (Or.inl h)))
    have h3 : ¬ s.row = 3 := fun h => hr (Or.inr (Or.inr (Or.inr h)))
    cases c <;> simp [isr, c1isr, c2isr, c3isr, c4isr, h0, h1, h2, h3, wait_us]

/-- The indicator register after a loop pass: untouched, or masked with 0x83. -/
theorem main_loop_GPIOE (s : State) :
    (main_loop s).GPIOE_ODR = s.GPIOE_ODR ∨
      (main_loop s).GPIOE_ODR = s.GPIOE_ODR &&& 0x83 := by
  obtain ⟨-, -, hg⟩ := scanRow_frame s
  unfold main_loop
  simp only [thread_sleep_for, emit_GPIOE]
  split_ifs
  · right; rw [evaluate_GPIOE, hg]
  · left; exact hg

/-- The bits 0, 1 and 7 of a register value survive the mask 0x83 and the setting of
one indicator bit. -/
theorem testBit_clear_set (x m i : Nat) (hm : m = 0 ∨ m ∈ indicatorBits)
    (hi : i = 0 ∨ i = 1 ∨ i = 7) :
    ((x &&& 0x83) ||| m).testBit i = x.testBit i := by
  have hmask : Nat.testBit 0x83 i = true := by
    rcases hi with rfl | rfl | rfl <;> decide
  have hbit : m.testBit i = false := by
    rcases hm with rfl | hm
    · simp
    · simp only [indicatorBits, List.mem_cons, List.mem_singleton, List.not_mem_nil,
        or_false] at hm
      rcases hm with rfl | rfl | rfl | rfl | rfl <;>
        rcases hi with rfl | rfl | rfl <;> decide
  rw [Nat.testBit_or, Nat.testBit_and, hmask, hbit]
  simp

/-- The row scan of a loop pass, statement by statement. -/
theorem runAt_scan (s : State) :
    ∃ n : Nat, runAt (List.replicate n .stmt) (.l92, s) = (.l120, scanRow s) := by
  by_cases h0 : s.row = 0
  · exact ⟨3, by simp [runAt, List.replicate, microStep, mainStep, scanRow, h0]⟩
  by_cases h1 : s.row = 1
  · exact ⟨3, by simp [runAt, List.replicate, microStep, mainStep, scanRow, h1]⟩
  by_cases h2 : s.row = 2
  · exact ⟨3, by simp [runAt, List.replicate, microStep, mainStep, scanRow, h2]⟩
  by_cases h3 : s.row = 3
  · exact ⟨3, by simp [runAt, List.replicate, microStep, mainStep, scanRow, h3]⟩
  · exact ⟨1, by simp [runAt, List.replicate, microStep, mainStep, scanRow, h0, h1, h2, h3]⟩

/-- The test of the count, the evaluation if there is one, and the 50 ms pause,
statement by statement. -/
theorem runAt_poll (t : State) :
    ∃ m : Nat, runAt (List.replicate m .stmt) (.l120, t) =
      (.l92, thread_sleep_for 50 (if t.numChars = 4 then evaluate t else t)) := by
  by_cases h4 : t.numChars = 4
  · by_cases hc : strcmp (t.attempt.set (PASSLEN - 1) NUL) password = some 0
    · exact ⟨13, by
        simp [runAt, List.replicate, microStep, mainStep, evaluate, evalBegin, evalEnd, h4, hc,
          lcd_clear, lcd_print, lcd_setCursor, thread_sleep_for]⟩
    · exact ⟨13, by
        simp [runAt, List.replicate, microStep, mainStep, evaluate, evalBegin, evalEnd, h4, hc,
          lcd_clear, lcd_print, lcd_setCursor, thread_sleep_for]⟩
  · exact ⟨2, by simp [runAt, List.replicate, microStep, mainStep, h4]⟩

/-- A loop pass in which no interrupt is serviced is `main_loop`: executing the
statements of the loop body one after the other from line 92 leads back to line 92 with
the state `main_loop` gives. -/
theorem runAt_pass (s : State) :
    ∃ n : Nat, runAt (List.replicate n .stmt) (.l92, s) = (.l92, main_loop s) := by
  obtain ⟨n, hn⟩ := runAt_scan s
  obtain ⟨m, hm⟩ := runAt_poll (scanRow s)
  refine ⟨n + m, ?_⟩
  rw [List.replicate_add]
  unfold runAt at hn hm ⊢
  rw [List.foldl_append, hn, hm]
  rfl

/-- While the terminator slot still holds the terminator, the fourth key lights the
indicator that matches the entry: in a state with three characters in, a five-element
buffer with `attempt[4]` the terminator and the row in 0..3, a key event stores its
character `k` in `attempt[3]` and lights green alone exactly when `attempt[0..2]`
followed by `k` is '0','5','9','6', red alone otherwise, in agreement with the text the
next loop pass prints. -/
theorem result_indicator_terminated (s : State) (c : Col)
    (hl : s.attempt.length = 5) (ht : s.attempt[4]? = some NUL)
    (hr : s.row = 0 ∨ s.row = 1 ∨ s.row = 2 ∨ s.row = 3) (h3 : s.numChars = 3) :
    ∃ k : Char, storedChar c s.row = some k ∧
      (isr c s).attempt.take 4 = s.attempt.take 3 ++ [k] ∧
      (litIndicators (isr c s).GPIOE_ODR = [0x20] ↔
        s.attempt.take 3 ++ [k] = ['0', '5', '9', '6']) ∧
      (litIndicators (isr c s).GPIOE_ODR = [0x40] ↔
        s.attempt.take 3 ++ [k] ≠ ['0', '5', '9', '6']) ∧
      (Event.lcdPrint "Unlocked!" ∈ displayedSince (isr c s) (main_loop (isr c s)) ↔
        litIndicators (isr c s).GPIOE_ODR = [0x20]) ∧
      (Event.lcdPrint "Locked!" ∈ displayedSince (isr c s) (main_loop (isr c s)) ↔
        litIndicators (isr c s).GPIOE_ODR = [0x40]) := by
  obtain ⟨a0, a1, a2, a3, a4, ha⟩ := list_length_five s.attempt hl
  have h4 : a4 = NUL := by
    rw [ha] at ht
    simpa using ht
  subst h4
  obtain ⟨k, hk, -, e⟩ := isr_effect c s hr
  have hatt : (isr c s).attempt = [a0, a1, a2, k, NUL] := by
    rw [e]; simp [storeAttempt, h3, ha]
  have hodr : (isr c s).GPIOE_ODR = (s.GPIOE_ODR &&& 0x83) |||
      (if a0 = '0' ∧ a1 = '5' ∧ a2 = '9' ∧ k = '6' then 0x20 else 0x40) := by
    rw [e]
    simp only [lightLEDs_GPIOE, h3]
    simp [storeAttempt, h3, ha, strcmp_password_iff]
  have hnum : (isr c s).numChars = 4 := by rw [isr_numChars, h3]; rfl
  have hU : cString [a0, a1, a2, k, NUL] ≠ "Unlocked!" :=
    cString_ne_of_length _ _ (by simp) (by decide)
  have hL : cString [a0, a1, a2, k, NUL] ≠ "Locked!" :=
    cString_ne_of_length _ _ (by simp) (by decide)
  have hdisp := displayedSince_main_loop_eval (isr c s) hnum
  rw [hatt] at hdisp
  simp only [List.set_cons_succ, List.set_cons_zero, strcmp_password_iff] at hdisp
  refine ⟨k, hk, by rw [hatt, ha]; rfl, ?_⟩
  rw [hdisp, hodr, ha]
  by_cases hm : a0 = '0' ∧ a1 = '5' ∧ a2 = '9' ∧ k = '6'
  · have g : litIndicators ((s.GPIOE_ODR &&& 0x83) ||| 0x20) = [0x20] :=
      litIndicators_clear_set _ _ (by decide)
    obtain ⟨rfl, rfl, rfl, rfl⟩ := hm
    simp [g, hU, hL, hU.symm, hL.symm]
  · have g : litIndicators ((s.GPIOE_ODR &&& 0x83) ||| 0x40) = [0x40] :=
      litIndicators_clear_set _ _ (by decide)
    simp only [hm, if_false, g]
    simp [hU, hL, hU.symm, hL.symm]
    exact fun e0 e1 e2 e3 => hm ⟨e0, e1, e2, e3⟩

/-- The indicator register after one statement of the loop body: untouched, or masked
with 0x83. -/
theorem mainStep_GPIOE (pc : Pc) (s : State) :
    (mainStep pc s).2.GPIOE_ODR = s.GPIOE_ODR ∨
      (mainStep pc s).2.GPIOE_ODR = s.GPIOE_ODR &&& 0x83 := by
  cases pc <;>
    simp [mainStep, driveRow, lcd_clear, lcd_print, lcd_setCursor, thread_sleep_for]

/-- From power-on, with key events serviced between any two statements, the program
never has more than one indicator bit, and no other bit, set in `GPIOE->ODR`. -/
theorem reachableAt_GPIOE (cfg : Pc × State) (h : ReachableAt cfg) :
    cfg.2.GPIOE_ODR ∈ [0, 0x4, 0x8, 0x10, 0x20, 0x40] := by
  obtain ⟨ms, rfl⟩ := h
  have mask : ∀ x : Nat, x ∈ [0, 0x4, 0x8, 0x10, 0x20, 0x40] → x &&& 0x83 = 0 := by
    decide
  have gen : ∀ (l : List Micro) (t : Pc × State),
      t.2.GPIOE_ODR ∈ [0, 0x4, 0x8, 0x10, 0x20, 0x40] →
      (runAt l t).2.GPIOE_ODR ∈ [0, 0x4, 0x8, 0x10, 0x20, 0x40] := by
    intro l
    induction l with
    | nil => intro t ht; exact ht
    | cons a l ih =>
      intro t ht
      apply ih (microStep t a)
      cases a with
      | stmt =>
        show (mainStep t.1 t.2).2.GPIOE_ODR ∈ _
        rcases mainStep_GPIOE t.1 t.2 with e | e
        · rw [e]; exact ht
        · rw [e, mask _ ht]; decide
      | irq c =>
        show (isr c t.2).GPIOE_ODR ∈ _
        rcases isr_GPIOE c t.2 with e | ⟨m, hm, e⟩
        · rw [e]; exact ht
        · rw [e, mask _ ht, Nat.zero_or]
          clear e
          revert m
          decide
  exact gen ms start (by decide)

/-- On a register value below 0x100 the mask 0x83 followed by the setting of at most one
indicator bit changes none of the bits outside 2..6. -/
theorem testBit_frame_low (x m i : Nat) (hx : x < 0x100) (hm : m = 0 ∨ m ∈ indicatorBits)
    (hi : i < 2 ∨ 6 < i) : ((x &&& 0x83) ||| m).testBit i = x.testBit i := by
  by_cases h7 : i = 0 ∨ i = 1 ∨ i = 7
  · exact testBit_clear_set x m i hm h7
  · have h8 : 8 ≤ i := by omega
    have hpow : (2 : Nat) ^ 8 ≤ 2 ^ i := Nat.pow_le_pow_right (by decide) h8
    have hxi : x.testBit i = false := Nat.testBit_lt_two_pow (by omega)
    have hmi : m.testBit i = false := by
      apply Nat.testBit_lt_two_pow
      have hm8 : m < 0x100 := by
        rcases hm with rfl | hm
        · decide
        · revert m; decide
      omega
    rw [Nat.testBit_or, Nat.testBit_and, hxi, hmi]
    rfl

/-- Loop passes from a state whose count is not 4, with no key event in between, leave
the count as it is and perform no operation of an evaluation and no display call. -/
theorem iterate_idle (n : Nat) (s : State) (h : s.numChars ≠ 4) :
    (main_loop^[n] s).numChars = s.numChars ∧
      ∃ evs : List Event, (main_loop^[n] s).trace = s.trace ++ evs ∧
        evs.filter (fun e => e.isEvaluation || e.isDisplay) = [] := by
  induction n generalizing s with
  | zero => exact ⟨rfl, [], by simp, rfl⟩
  | succ n ih =>
    have hnum : (main_loop s).numChars = s.numChars := by
      rw [main_loop_idle s h]
      simp [thread_sleep_for, (scanRow_frame s).2.1]
    obtain ⟨evs1, he1, hf1⟩ := main_loop_idle_trace s h
    obtain ⟨hn2, evs2, he2, hf2⟩ := ih (main_loop s) (by rw [hnum]; exact h)
    rw [Function.iterate_succ_apply]
    refine ⟨by rw [hn2, hnum], evs1 ++ evs2, ?_, ?_⟩
    · rw [he2, he1, List.append_assoc]
    · rw [List.filter_append, hf1, hf2]; rfl

/-! ## Entry cycle, evaluator and key table -/

/-- C1. Full entry cycle: from power-on, any four key events (any handlers, each fired
with the scanner at one of the rows 0..3) followed by one pass of the main loop make the
display receive, in order, clear, print of exactly the four stored characters in the
order pressed, setCursor(0,1) and print of "Unlocked!" when the four characters are
'0','5','9','6' and of "Locked!" otherwise; the pass then ends with clear and the prompt. -/
theorem C1_full_entry_cycle (x1 x2 x3 x4 : Col) (r1 r2 r3 r4 : Int)
    (h1 : r1 = 0 ∨ r1 = 1 ∨ r1 = 2 ∨ r1 = 3) (h2 : r2 = 0 ∨ r2 = 1 ∨ r2 = 2 ∨ r2 = 3)
    (h3 : r3 = 0 ∨ r3 = 1 ∨ r3 = 2 ∨ r3 = 3) (h4 : r4 = 0 ∨ r4 = 1 ∨ r4 = 2 ∨ r4 = 3) :
    ∃ k1 k2 k3 k4 : Char,
      storedChar x1 r1 = some k1 ∧ storedChar x2 r2 = some k2 ∧
      storedChar x3 r3 = some k3 ∧ storedChar x4 r4 = some k4 ∧
      displayedSince (press x4 r4 (press x3 r3 (press x2 r2 (press x1 r1 powerOn))))
          (main_loop (press x4 r4 (press x3 r3 (press x2 r2 (press x1 r1 powerOn))))) =
        [.lcdClear, .lcdPrint (String.mk [k1, k2, k3, k4]), .lcdSetCursor 0 1,
          .lcdPrint (if [k1, k2, k3, k4] = ['0', '5', '9', '6']
            then "Unlocked!" else "Locked!"),
          .lcdClear, .lcdPrint "Enter passcode:"] := by
  obtain ⟨k1, hk1, n1, a1, m1, -⟩ := press_fields x1 r1 powerOn 0 h1 rfl
  obtain ⟨k2, hk2, n2, a2, m2, -⟩ := press_fields x2 r2 _ 1 h2 m1
  obtain ⟨k3, hk3, n3, a3, m3, -⟩ := press_fields x3 r3 _ 2 h3 m2
  obtain ⟨k4, hk4, n4, a4, m4, -⟩ := press_fields x4 r4 _ 3 h4 m3
  refine ⟨k1, k2, k3, k4, hk1, hk2, hk3, hk4, ?_⟩
  have hp : powerOn.attempt = [NUL, NUL, NUL, NUL, NUL] := rfl
  rw [displayedSince_main_loop_eval _ m4, a4, a3, a2, a1, hp]
  simp [cString, strcmp_password_iff, n1, n2, n3, n4]

/-- C1, at the two key sequences of the scenario: 0,5,9,6 shows "0596" and "Unlocked!",
1,2,3,4 shows "1234" and "Locked!". -/
theorem C1_full_entry_cycle_witness :
    displayedSince (press .c4 2 (press .c4 1 (press .c3 2 (press .c3 0 powerOn))))
        (main_loop (press .c4 2 (press .c4 1 (press .c3 2 (press .c3 0 powerOn))))) =
      [.lcdClear, .lcdPrint "0596", .lcdSetCursor 0 1, .lcdPrint "Unlocked!",
        .lcdClear, .lcdPrint "Enter passcode:"] ∧
    displayedSince (press .c1 2 (press .c4 3 (press .c3 3 (press .c1 3 powerOn))))
        (main_loop (press .c1 2 (press .c4 3 (press .c3 3 (press .c1 3 powerOn))))) =
      [.lcdClear, .lcdPrint "1234", .lcdSetCursor 0 1, .lcdPrint "Locked!",
        .lcdClear, .lcdPrint "Enter passcode:"] := by
  constructor
  · obtain ⟨k1, k2, k3, k4, e1, e2, e3, e4, h⟩ :=
      C1_full_entry_cycle .c3 .c3 .c4 .c4 0 2 1 2 (by decide) (by decide) (by decide)
        (by decide)
    have f1 : storedChar .c3 0 = some '0' := by decide
    have f2 : storedChar .c3 2 = some '5' := by decide
    have f3 : storedChar .c4 1 = some '9' := by decide
    have f4 : storedChar .c4 2 = some '6' := by decide
    rw [f1] at e1; rw [f2] at e2; rw [f3] at e3; rw [f4] at e4
    cases e1; cases e2; cases e3; cases e4
    rw [h]; decide
  · obtain ⟨k1, k2, k3, k4, e1, e2, e3, e4, h⟩ :=
      C1_full_entry_cycle .c1 .c3 .c4 .c1 3 3 3 2 (by decide) (by decide) (by decide)
        (by decide)
    have f1 : storedChar .c1 3 = some '1' := by decide
    have f2 : storedChar .c3 3 = some '2' := by decide
    have f3 : storedChar .c4 3 = some '3' := by decide
    have f4 : storedChar .c1 2 = some '4' := by decide
    rw [f1] at e1; rw [f2] at e2; rw [f3] at e3; rw [f4] at e4
    cases e1; cases e2; cases e3; cases e4
    rw [h]; decide

/-- C2. PasscodeEvaluator: whatever the five bytes of `attempt` are (terminators in
positions 0..3 included), once the main loop has written the terminator into
`attempt[4]` the comparison `strcmp(attempt, password) == 0` holds exactly when
`attempt[0..3]` is '0','5','9','6' position by position, and the verdict printed is
"Unlocked!" in that case and "Locked!" in every other. -/
theorem C2_evaluator_iff (s : State) (a0 a1 a2 a3 a4 : Char)
    (h : s.attempt = [a0, a1, a2, a3, a4]) :
    (strcmp (evalBegin s).attempt password = some 0 ↔
        a0 = '0' ∧ a1 = '5' ∧ a2 = '9' ∧ a3 = '6') ∧
    ((evalBegin s).trace.getLast? = some (.lcdPrint "Unlocked!") ↔
        a0 = '0' ∧ a1 = '5' ∧ a2 = '9' ∧ a3 = '6') ∧
    ((evalBegin s).trace.getLast? = some (.lcdPrint "Locked!") ↔
        ¬ (a0 = '0' ∧ a1 = '5' ∧ a2 = '9' ∧ a3 = '6')) := by
  have hs : s.attempt.set (PASSLEN - 1) NUL = [a0, a1, a2, a3, NUL] := by
    rw [h]; rfl
  unfold evalBegin
  by_cases hc : a0 = '0' ∧ a1 = '5' ∧ a2 = '9' ∧ a3 = '6'
  · simp [hs, strcmp_password_iff, hc, lcd_clear, lcd_print, lcd_setCursor]
  · simp [hs, strcmp_password_iff, hc, lcd_clear, lcd_print, lcd_setCursor]

/-- C2, at the two buffers of the scenario: "0596" compares equal and "0569" does not,
also when the fifth byte was not a terminator before. -/
theorem C2_evaluator_iff_witness :
    strcmp (evalBegin { powerOn with attempt := ['0', '5', '9', '6', 'x'] }).attempt
        password = some 0 ∧
    ¬ strcmp (evalBegin { powerOn with attempt := ['0', '5', '6', '9', 'x'] }).attempt
        password = some 0 :=
  ⟨(C2_evaluator_iff { powerOn with attempt := ['0', '5', '9', '6', 'x'] }
      '0' '5' '9' '6' 'x' rfl).1.2 (by decide),
   fun h => absurd ((C2_evaluator_iff { powerOn with attempt := ['0', '5', '6', '9', 'x'] }
      '0' '5' '6' '9' 'x' rfl).1.1 h) (by decide)⟩

/-- C3. Key table: the map from (row 0..3, handler) to the stored character is injective
on its 16 inputs; its image is exactly the 16 legend characters '0'..'9', '*', '#',
'A'..'D'; `c1isr` stores '*','7','4','1' and `c2isr` stores 'D','C','B','A' for rows
0,1,2,3; and each row yields the four keys of one legend row. -/
theorem C3_key_table :
    (∀ c c' : Col, ∀ r r' : Fin 4,
      storedChar c (r.val : Int) = storedChar c' (r'.val : Int) → c = c' ∧ r = r') ∧
    (∀ c : Col, ∀ r : Fin 4, ∃ k ∈ ['0', '1', '2', '3', '4', '5', '6', '7', '8', '9',
        '*', '#', 'A', 'B', 'C', 'D'], storedChar c (r.val : Int) = some k) ∧
    (∀ k ∈ ['0', '1', '2', '3', '4', '5', '6', '7', '8', '9', '*', '#', 'A', 'B', 'C', 'D'],
      ∃ c : Col, ∃ r : Fin 4, storedChar c (r.val : Int) = some k) ∧
    [storedChar .c1 0, storedChar .c1 1, storedChar .c1 2, storedChar .c1 3] =
      [some '*', some '7', some '4', some '1'] ∧
    [storedChar .c2 0, storedChar .c2 1, storedChar .c2 2, storedChar .c2 3] =
      [some 'D', some 'C', some 'B', some 'A'] ∧
    [storedChar .c1 0, storedChar .c3 0, storedChar .c4 0, storedChar .c2 0] =
      [some '*', some '0', some '#', some 'D'] ∧
    [storedChar .c1 1, storedChar .c3 1, storedChar .c4 1, storedChar .c2 1] =
      [some '7', some '8', some '9', some 'C'] ∧
    [storedChar .c1 2, storedChar .c3 2, storedChar .c4 2, storedChar .c2 2] =
      [some '4', some '5', some '6', some 'B'] ∧
    [storedChar .c1 3, storedChar .c3 3, storedChar .c4 3, storedChar .c2 3] =
      [some '1', some '2', some '3', some 'A'] := by
  refine ⟨by decide, by decide, by decide, by decide, by decide, by decide, by decide,
    by decide, by decide⟩

/-! ## Entry count and buffer stores -/

/-- C4. Entry-count bound, at the failing input: five key events after power-on with no
loop pass between the fourth and the fifth.  The fourth leaves `numChars` at 4, the
fifth raises it to 5, so the reachable states are not confined to `numChars` in [0,4]. -/
theorem C4_fifth_edge_overcount :
    (run [.key .c3, .key .c3, .key .c3, .key .c3] powerOn).numChars = 4 ∧
    (run [.key .c3, .key .c3, .key .c3, .key .c3, .key .c3] powerOn).numChars = 5 ∧
    ¬ (∀ s : State, Reachable s → 0 ≤ s.numChars ∧ s.numChars ≤ 4) := by
  refine ⟨by decide, by decide, ?_⟩
  intro h
  have h5 := (h _ ⟨[.key .c3, .key .c3, .key .c3, .key .c3, .key .c3], rfl⟩).2
  revert h5
  decide

/-- C5. Buffer-write safety, at the failing input: six key events after power-on with no
loop pass in between.  The fifth handler stores at index 4, the terminator slot, and the
sixth at index 5, past the five-element array. -/
theorem C5_store_out_of_range :
    Event.isrStore 4 '0' ∈
      (run [.key .c3, .key .c3, .key .c3, .key .c3, .key .c3, .key .c3] powerOn).trace ∧
    Event.isrStore 5 '0' ∈
      (run [.key .c3, .key .c3, .key .c3, .key .c3, .key .c3, .key .c3] powerOn).trace ∧
    ¬ (∀ s : State, Reachable s → ∀ i k, Event.isrStore i k ∈ s.trace → 0 ≤ i ∧ i ≤ 3) := by
  refine ⟨by decide, by decide, ?_⟩
  intro h
  have h5 := (h _ ⟨[.key .c3, .key .c3, .key .c3, .key .c3, .key .c3], rfl⟩ 4 '0'
    (by decide)).2
  revert h5
  decide

/-! ## Order of effects inside an evaluation -/

/-- C6 as stated fails: after four key events from power-on, the loop pass performs
`numChars = 0` before `thread_sleep_for(5000)`, not after, and a key event serviced
during that pause is counted (the pass ends with `numChars` at 1, not 0). -/
theorem C6_reset_precedes_pause :
    ¬ ((eventsSince (run [.key .c3, .key .c3, .key .c3, .key .c3] powerOn)
          (main_loop (run [.key .c3, .key .c3, .key .c3, .key .c3] powerOn))).indexOf
          (.threadSleepFor 5000) <
        (eventsSince (run [.key .c3, .key .c3, .key .c3, .key .c3] powerOn)
          (main_loop (run [.key .c3, .key .c3, .key .c3, .key .c3] powerOn))).indexOf
          .countReset) ∧
    (main_loop_irq c3isr (run [.key .c3, .key .c3, .key .c3, .key .c3] powerOn)).numChars
      ≠ 0 := by
  constructor <;> decide

/-- C6, amended. Reset timing: a loop pass that finds `numChars == 4` performs, after the
row scan, exactly: terminator store, clear, print of the attempt, `numChars = 0`,
setCursor(0,1), print of the verdict, the 5000 ms pause, clear, print of the prompt, the
50 ms pause.  So `numChars` is set back to 0 right after the attempt is printed, before
the verdict is rendered and before the pause; and a key event serviced during the pause
is counted towards the next attempt: the pass then ends with `numChars` at 1. -/
theorem C6_reset_timing (s : State) (h4 : s.numChars = 4) :
    eventsSince (scanRow s) (main_loop s) =
      [.mainStore 4, .lcdClear, .lcdPrint (cString (s.attempt.set 4 NUL)), .countReset,
        .lcdSetCursor 0 1,
        .lcdPrint (if strcmp (s.attempt.set 4 NUL) password = some 0
          then "Unlocked!" else "Locked!"),
        .threadSleepFor 5000, .lcdClear, .lcdPrint "Enter passcode:",
        .threadSleepFor 50] ∧
    (main_loop s).numChars = 0 ∧
    ∀ c : Col, (main_loop_irq (isr c) s).numChars = 1 := by
  obtain ⟨ha, hn, -⟩ := scanRow_frame s
  refine ⟨?_, ?_, ?_⟩
  · unfold eventsSince main_loop
    simp only [hn, h4, if_true, thread_sleep_for, emit_trace, evaluate_trace, ha]
    simp
  · unfold main_loop
    simp [hn, h4, thread_sleep_for, evaluate, evalEnd, evalBegin, lcd_clear, lcd_print,
      lcd_setCursor]
    split_ifs <;> simp
  · intro c
    unfold main_loop_irq
    simp only [hn, h4, if_true]
    have h0 : (thread_sleep_for 5000 (evalBegin (scanRow s))).numChars = 0 := by
      simp [thread_sleep_for, evalBegin, lcd_clear, lcd_print, lcd_setCursor]
      split_ifs <;> simp
    simp [thread_sleep_for, evalEnd, lcd_clear, lcd_print, isr_numChars] at h0 ⊢
    rw [h0]

/-- C6 amended, at the state after four key events from power-on: the loop pass resets
the count fourth, pauses seventh, and a key event during the pause is counted. -/
theorem C6_reset_timing_witness :
    (run [.key .c3, .key .c3, .key .c3, .key .c3] powerOn).numChars = 4 ∧
    eventsSince (scanRow (run [.key .c3, .key .c3, .key .c3, .key .c3] powerOn))
        (main_loop (run [.key .c3, .key .c3, .key .c3, .key .c3] powerOn)) =
      [.mainStore 4, .lcdClear, .lcdPrint "0000", .countReset, .lcdSetCursor 0 1,
        .lcdPrint "Locked!", .threadSleepFor 5000, .lcdClear, .lcdPrint "Enter passcode:",
        .threadSleepFor 50] ∧
    (main_loop_irq (isr .c4)
      (run [.key .c3, .key .c3, .key .c3, .key .c3] powerOn)).numChars = 1 := by
  have h := C6_reset_timing (run [.key .c3, .key .c3, .key .c3, .key .c3] powerOn)
    (by decide)
  refine ⟨by decide, ?_, h.2.2 .c4⟩
  rw [h.1]
  decide

/-! ## Row scanner -/

/-- C7. Row scanner order: from any state whose row is in 0..3, whatever `numChars` is, one
loop pass changes `row` to `(row + 1) mod 4`; `n` passes change it to `(row + n) mod 4`,
so successive passes visit the rows cyclically and four passes bring `row` back. -/
theorem C7_row_scanner_order (s : State)
    (hr : s.row = 0 ∨ s.row = 1 ∨ s.row = 2 ∨ s.row = 3) :
    (main_loop s).row = (s.row + 1) % 4 ∧
    (∀ n : Nat, (main_loop^[n] s).row = (s.row + (n : Int)) % 4) ∧
    (main_loop^[4] s).row = s.row ∧
    (main_loop^[1] s).row ≠ s.row ∧ (main_loop^[2] s).row ≠ s.row ∧
    (main_loop^[3] s).row ≠ s.row := by
  have hn := fun n => iterate_main_loop_row n s hr
  refine ⟨?_, hn, ?_, ?_, ?_, ?_⟩
  · rw [(main_loop_row s).1, (scanRow_row s hr).1]
  · rw [hn 4]; push_cast; omega
  · rw [hn 1]; push_cast; omega
  · rw [hn 2]; push_cast; omega
  · rw [hn 3]; push_cast; omega

/-- C7, at two states: at power-on (no evaluation in the pass) and after four key events
at row 3 (the pass evaluates), the row advances by one modulo four. -/
theorem C7_row_scanner_order_witness :
    (main_loop powerOn).row = 1 ∧
    (main_loop (press .c1 3 (press .c1 3 (press .c1 3 (press .c1 3 powerOn))))).row = 0 := by
  have h0 := (C7_row_scanner_order powerOn (by decide)).1
  have h3 := (C7_row_scanner_order
    (press .c1 3 (press .c1 3 (press .c1 3 (press .c1 3 powerOn)))) (by decide)).1
  exact ⟨by rw [h0]; decide, by rw [h3]; decide⟩

/-- C8. Row drive is one-hot: after a loop pass from a state whose row is in 0..3, the value
written to `GPIOC->ODR` is the line of the new row (row 0 -> 0x100, 1 -> 0x400,
2 -> 0x800, 3 -> 0x200); exactly one bit of it is set and that bit is one of bits 8..11;
and two passes that drive the same line have the same new row and vice versa. -/
theorem C8_row_drive_one_hot (s : State)
    (hr : s.row = 0 ∨ s.row = 1 ∨ s.row = 2 ∨ s.row = 3) :
    (((main_loop s).row = 0 ∧ (main_loop s).GPIOC_ODR = 0x100) ∨
     ((main_loop s).row = 1 ∧ (main_loop s).GPIOC_ODR = 0x400) ∨
     ((main_loop s).row = 2 ∧ (main_loop s).GPIOC_ODR = 0x800) ∨
     ((main_loop s).row = 3 ∧ (main_loop s).GPIOC_ODR = 0x200)) ∧
    (∃ k : Nat, 8 ≤ k ∧ k ≤ 11 ∧
      ∀ i : Nat, (main_loop s).GPIOC_ODR.testBit i = true ↔ i = k) ∧
    Event.rowDrive (main_loop s).GPIOC_ODR ∈ eventsSince s (main_loop s) ∧
    (∀ t : State, (t.row = 0 ∨ t.row = 1 ∨ t.row = 2 ∨ t.row = 3) →
      ((main_loop s).GPIOC_ODR = (main_loop t).GPIOC_ODR ↔
        (main_loop s).row = (main_loop t).row)) := by
  have table : ∀ t : State, (t.row = 0 ∨ t.row = 1 ∨ t.row = 2 ∨ t.row = 3) →
      (((main_loop t).row = 0 ∧ (main_loop t).GPIOC_ODR = 0x100) ∨
       ((main_loop t).row = 1 ∧ (main_loop t).GPIOC_ODR = 0x400) ∨
       ((main_loop t).row = 2 ∧ (main_loop t).GPIOC_ODR = 0x800) ∨
       ((main_loop t).row = 3 ∧ (main_loop t).GPIOC_ODR = 0x200)) := by
    intro t ht
    rw [(main_loop_row t).1, (main_loop_row t).2]
    exact (scanRow_row t ht).2
  refine ⟨table s hr, ?_, ?_, ?_⟩
  · rcases table s hr with ⟨-, h⟩ | ⟨-, h⟩ | ⟨-, h⟩ | ⟨-, h⟩
    · exact ⟨8, by omega, by omega, fun i => by rw [h]; exact testBit_two_pow_iff 8 i⟩
    · exact ⟨10, by omega, by omega, fun i => by rw [h]; exact testBit_two_pow_iff 10 i⟩
    · exact ⟨11, by omega, by omega, fun i => by rw [h]; exact testBit_two_pow_iff 11 i⟩
    · exact ⟨9, by omega, by omega, fun i => by rw [h]; exact testBit_two_pow_iff 9 i⟩
  · obtain ⟨evs, he⟩ := main_loop_trace_scan s
    unfold eventsSince
    rw [he, scanRow_drive s hr, List.append_assoc, List.drop_left, (main_loop_row s).2]
    simp
  · intro t ht
    rcases table s hr with ⟨a, b⟩ | ⟨a, b⟩ | ⟨a, b⟩ | ⟨a, b⟩ <;>
      rcases table t ht with ⟨c, d⟩ | ⟨c, d⟩ | ⟨c, d⟩ | ⟨c, d⟩ <;>
      simp [a, b, c, d]

/-- C8, at power-on: the first loop pass selects row 1 and drives 0x400, bit 10 alone. -/
theorem C8_row_drive_one_hot_witness :
    (main_loop powerOn).row = 1 ∧ (main_loop powerOn).GPIOC_ODR = 0x400 ∧
    Event.rowDrive 0x400 ∈ eventsSince powerOn (main_loop powerOn) := by
  have h := C8_row_drive_one_hot powerOn (by decide)
  have e : (main_loop powerOn).GPIOC_ODR = 0x400 := by decide
  refine ⟨by decide, e, ?_⟩
  rw [← e]
  exact h.2.2.1

/-! ## Indicators -/

/-- C9. Indicator exclusivity: for every prior value of `GPIOE->ODR` and every buffer
content, after `lightLEDs(n)` exactly one of the five indicator bits is set; for
n = 0, 1, 2 it is the progress bit 0x4, 0x8, 0x10 respectively, and for n = 3 it is one of
the result bits 0x20 and 0x40, which differ from every progress bit. -/
theorem C9_indicator_exclusive (s : State) :
    (∀ n : Int, (litIndicators (lightLEDs n s).GPIOE_ODR).length = 1) ∧
    litIndicators (lightLEDs 0 s).GPIOE_ODR = [0x4] ∧
    litIndicators (lightLEDs 1 s).GPIOE_ODR = [0x8] ∧
    litIndicators (lightLEDs 2 s).GPIOE_ODR = [0x10] ∧
    (litIndicators (lightLEDs 3 s).GPIOE_ODR = [0x20] ∨
      litIndicators (lightLEDs 3 s).GPIOE_ODR = [0x40]) := by
  refine ⟨?_, ?_, ?_, ?_, ?_⟩
  · intro n
    rw [lightLEDs_GPIOE]
    split_ifs <;> rw [litIndicators_clear_set _ _ (by decide)] <;> rfl
  · rw [lightLEDs_GPIOE]; exact litIndicators_clear_set _ 0x4 (by decide)
  · rw [lightLEDs_GPIOE]; exact litIndicators_clear_set _ 0x8 (by decide)
  · rw [lightLEDs_GPIOE]; exact litIndicators_clear_set _ 0x10 (by decide)
  · rw [lightLEDs_GPIOE]
    by_cases h : strcmp s.attempt password = some 0
    · left; simp only [h]; exact litIndicators_clear_set _ _ (by decide)
    · right; simp only [h]; exact litIndicators_clear_set _ _ (by decide)

set_option maxRecDepth 100000 in
/-- C10. Result indicator on the fourth key, at the failing input `edgeInsideEvaluation`:
after four keys an edge is serviced inside the evaluation, between lines 124 and 125; it
stores '8' in `attempt[4]`, and line 125 then sets the count back to 0.  Every store of
the execution is inside the array.  Three keys later the program is at the top of the
loop with `numChars == 3` and `attempt` holding 0,5,9 in slots 0..2 and '8' in slot 4;
the key 6 then lights the red indicator (0x40) although the four characters are
'0','5','9','6', and the next loop pass prints "0596" and "Unlocked!".  So the indicator
does not follow the four characters in every reachable state. -/
theorem C10_red_indicator_with_unlocked :
    storesInRange edgeInsideEvaluation start = true ∧
    (runAt edgeInsideEvaluation start).1 = .l92 ∧
    (runAt edgeInsideEvaluation start).2.numChars = 3 ∧
    (runAt edgeInsideEvaluation start).2.attempt = ['0', '5', '9', '0', '8'] ∧
    storedChar .c4 (runAt edgeInsideEvaluation start).2.row = some '6' ∧
    (isr .c4 (runAt edgeInsideEvaluation start).2).attempt = ['0', '5', '9', '6', '8'] ∧
    litIndicators (isr .c4 (runAt edgeInsideEvaluation start).2).GPIOE_ODR = [0x40] ∧
    displayedSince (isr .c4 (runAt edgeInsideEvaluation start).2)
        (main_loop (isr .c4 (runAt edgeInsideEvaluation start).2)) =
      [.lcdClear, .lcdPrint "0596", .lcdSetCursor 0 1, .lcdPrint "Unlocked!",
        .lcdClear, .lcdPrint "Enter passcode:"] ∧
    ¬ (∀ cfg : Pc × State, ReachableAt cfg → cfg.2.numChars = 3 → ∀ c : Col, ∀ k : Char,
        storedChar c cfg.2.row = some k →
        (litIndicators (isr c cfg.2).GPIOE_ODR = [0x20] ↔
          cfg.2.attempt.take 3 ++ [k] = ['0', '5', '9', '6'])) := by
  refine ⟨by decide, by decide, by decide, by decide, by decide, by decide, by decide,
    by decide, ?_⟩
  intro h
  have hg := (h (runAt edgeInsideEvaluation start) ⟨edgeInsideEvaluation, rfl⟩ (by decide)
    .c4 '6' (by decide)).2 (by decide)
  revert hg
  decide

/-! ## Independence of cycles -/

/-- C11. No carry-over between cycles: two states with `numChars == 0` that differ
arbitrarily in the five bytes of `attempt` and in the indicator register give, after the
same four key events (rows in 0..3) and one loop pass, the same display calls: the
attempt text is the four stored characters and the verdict text is decided by those four
characters alone.  The handlers fire at the given rows, so the rows the two states start
with need not even agree. -/
theorem C11_no_carry_over (s t : State) (x1 x2 x3 x4 : Col) (r1 r2 r3 r4 : Int)
    (h1 : r1 = 0 ∨ r1 = 1 ∨ r1 = 2 ∨ r1 = 3) (h2 : r2 = 0 ∨ r2 = 1 ∨ r2 = 2 ∨ r2 = 3)
    (h3 : r3 = 0 ∨ r3 = 1 ∨ r3 = 2 ∨ r3 = 3) (h4 : r4 = 0 ∨ r4 = 1 ∨ r4 = 2 ∨ r4 = 3)
    (hs : s.numChars = 0) (ht : t.numChars = 0)
    (ls : s.attempt.length = 5) (lt : t.attempt.length = 5) :
    displayedSince (press x4 r4 (press x3 r3 (press x2 r2 (press x1 r1 s))))
        (main_loop (press x4 r4 (press x3 r3 (press x2 r2 (press x1 r1 s))))) =
      displayedSince (press x4 r4 (press x3 r3 (press x2 r2 (press x1 r1 t))))
        (main_loop (press x4 r4 (press x3 r3 (press x2 r2 (press x1 r1 t))))) ∧
    ∃ k1 k2 k3 k4 : Char,
      storedChar x1 r1 = some k1 ∧ storedChar x2 r2 = some k2 ∧
      storedChar x3 r3 = some k3 ∧ storedChar x4 r4 = some k4 ∧
      displayedSince (press x4 r4 (press x3 r3 (press x2 r2 (press x1 r1 t))))
          (main_loop (press x4 r4 (press x3 r3 (press x2 r2 (press x1 r1 t))))) =
        [.lcdClear, .lcdPrint (String.mk [k1, k2, k3, k4]), .lcdSetCursor 0 1,
          .lcdPrint (if [k1, k2, k3, k4] = ['0', '5', '9', '6']
            then "Unlocked!" else "Locked!"),
          .lcdClear, .lcdPrint "Enter passcode:"] := by
  obtain ⟨k1, k2, k3, k4, a1, a2, a3, a4, es⟩ :=
    entry_cycle_display s x1 x2 x3 x4 r1 r2 r3 r4 h1 h2 h3 h4 hs ls
  obtain ⟨j1, j2, j3, j4, b1, b2, b3, b4, et⟩ :=
    entry_cycle_display t x1 x2 x3 x4 r1 r2 r3 r4 h1 h2 h3 h4 ht lt
  rw [a1] at b1; rw [a2] at b2; rw [a3] at b3; rw [a4] at b4
  cases b1; cases b2; cases b3; cases b4
  exact ⟨es.trans et.symm, k1, k2, k3, k4, a1, a2, a3, a4, et⟩

/-- C11, at two states that differ in every buffer byte, in the indicator register and in
the row: the keys 0,5,9,6 show "0596" and "Unlocked!" from both. -/
theorem C11_no_carry_over_witness :
    displayedSince
        (press .c4 2 (press .c4 1 (press .c3 2 (press .c3 0 powerOn))))
        (main_loop (press .c4 2 (press .c4 1 (press .c3 2 (press .c3 0 powerOn))))) =
      displayedSince
        (press .c4 2 (press .c4 1 (press .c3 2 (press .c3 0
          { powerOn with attempt := ['1', '2', '3', '4', 'x'], GPIOE_ODR := 0x40,
                         row := 3 }))))
        (main_loop (press .c4 2 (press .c4 1 (press .c3 2 (press .c3 0
          { powerOn with attempt := ['1', '2', '3', '4', 'x'], GPIOE_ODR := 0x40,
                         row := 3 }))))) :=
  (C11_no_carry_over powerOn
    { powerOn with attempt := ['1', '2', '3', '4', 'x'], GPIOE_ODR := 0x40, row := 3 }
    .c3 .c3 .c4 .c4 0 2 1 2 (by decide) (by decide) (by decide) (by decide)
    rfl rfl rfl rfl).1

/-! ## Where the letters are -/

/-- C12 as stated fails: at row 0 the handler `c4isr` stores '#', which is no letter, and
the handler `c2isr`, one of the first three, stores the letter 'D'. -/
theorem C12_letters_not_on_c4 :
    storedChar .c4 0 = some '#' ∧ storedChar .c2 0 = some 'D' ∧
    ¬ ((∀ r : Fin 4, ∃ k ∈ ['A', 'B', 'C', 'D'], storedChar .c4 (r.val : Int) = some k) ∧
       (∀ c ∈ [Col.c1, Col.c2, Col.c3], ∀ r : Fin 4,
          ∀ k ∈ ['A', 'B', 'C', 'D'], storedChar c (r.val : Int) ≠ some k)) := by
  decide

/-- C12, amended. Letters are on the second handler: for every row in 0..3 the character
stored by `c2isr` is one of the letters 'A','B','C','D' ('D','C','B','A' for rows
0,1,2,3), and no handler among `c1isr`, `c3isr`, `c4isr` stores a letter. -/
theorem C12_letters_on_c2 :
    (∀ r : Fin 4, ∃ k ∈ ['A', 'B', 'C', 'D'], storedChar .c2 (r.val : Int) = some k) ∧
    [storedChar .c2 0, storedChar .c2 1, storedChar .c2 2, storedChar .c2 3] =
      [some 'D', some 'C', some 'B', some 'A'] ∧
    (∀ c ∈ [Col.c1, Col.c3, Col.c4], ∀ r : Fin 4,
      ∀ k ∈ ['A', 'B', 'C', 'D'], storedChar c (r.val : Int) ≠ some k) := by
  decide

/-! ## End of an evaluation and frame properties -/

/-- C13. End of an evaluation: from every state with `numChars == 4`, after the loop pass
`numChars` is 0, none of the five indicator bits of `GPIOE->ODR` is set, and the pass
ends with the 5000 ms pause, clear, print "Enter passcode:" and the 50 ms pause, so that
clear and the prompt are its last display calls and come after the 5000 ms pause. -/
theorem C13_end_of_evaluation (s : State) (h4 : s.numChars = 4) :
    (main_loop s).numChars = 0 ∧
    litIndicators (main_loop s).GPIOE_ODR = [] ∧
    (∀ b ∈ indicatorBits, (main_loop s).GPIOE_ODR &&& b = 0) ∧
    (∃ pre : List Event, eventsSince s (main_loop s) =
      pre ++ [.threadSleepFor 5000, .lcdClear, .lcdPrint "Enter passcode:",
        .threadSleepFor 50]) ∧
    (displayedSince s (main_loop s)).drop 4 = [.lcdClear, .lcdPrint "Enter passcode:"] := by
  obtain ⟨ha, hn, hg⟩ := scanRow_frame s
  have hn4 : (scanRow s).numChars = 4 := by rw [hn, h4]
  have hodr : (main_loop s).GPIOE_ODR = s.GPIOE_ODR &&& 0x83 := by
    unfold main_loop
    simp only [hn4, if_true, thread_sleep_for, emit_GPIOE, evaluate_GPIOE, hg]
  have hlit := litIndicators_clear s.GPIOE_ODR
  refine ⟨?_, ?_, ?_, ?_, ?_⟩
  · unfold main_loop
    simp only [hn4, if_true, thread_sleep_for, emit_numChars, (evaluate_fields _).2]
  · rw [hodr]; exact hlit
  · intro b hb
    rw [hodr]
    by_contra hne
    have hmem : b ∈ litIndicators (s.GPIOE_ODR &&& 0x83) := by
      unfold litIndicators
      exact List.mem_filter.mpr ⟨hb, by simpa using hne⟩
    rw [hlit] at hmem
    exact List.not_mem_nil _ hmem
  · obtain ⟨evs, he, -, -⟩ := scanRow_trace s
    refine ⟨evs ++ [.mainStore 4, .lcdClear, .lcdPrint (cString (s.attempt.set 4 NUL)),
      .countReset, .lcdSetCursor 0 1,
      .lcdPrint (if strcmp (s.attempt.set 4 NUL) password = some 0
        then "Unlocked!" else "Locked!")], ?_⟩
    unfold eventsSince main_loop
    simp only [hn4, if_true, thread_sleep_for, emit_trace, evaluate_trace, ha, he]
    simp
  · rw [displayedSince_main_loop_eval s h4]
    rfl

/-- C13, at the state after four key events from power-on, where the red indicator is
lit: the loop pass leaves the count at 0 and no indicator lit. -/
theorem C13_end_of_evaluation_witness :
    litIndicators (run [.key .c3, .key .c3, .key .c3, .key .c3] powerOn).GPIOE_ODR = [0x40] ∧
    (main_loop (run [.key .c3, .key .c3, .key .c3, .key .c3] powerOn)).numChars = 0 ∧
    litIndicators
      (main_loop (run [.key .c3, .key .c3, .key .c3, .key .c3] powerOn)).GPIOE_ODR = [] := by
  have h := C13_end_of_evaluation (run [.key .c3, .key .c3, .key .c3, .key .c3] powerOn)
    (by decide)
  exact ⟨by decide, h.1, h.2.1⟩

/-- C14. Key-event frame: from every state with row in 0..3 and `numChars = k` in 0..3,
each of the four handlers raises `numChars` to `k + 1`, writes the buffer at index `k`
only (every other position, the terminator slot included, keeps its value) and leaves
`row` unchanged; and a loop pass, from any state, never changes `attempt[0..3]`. -/
theorem C14_key_event_frame (s : State) (c : Col) (k : Nat)
    (hr : s.row = 0 ∨ s.row = 1 ∨ s.row = 2 ∨ s.row = 3)
    (hk : s.numChars = (k : Int)) (hk3 : k ≤ 3) :
    (∃ ch : Char, storedChar c s.row = some ch ∧
      (isr c s).attempt = s.attempt.set k ch ∧
      (k < s.attempt.length → (isr c s).attempt[k]? = some ch)) ∧
    (isr c s).numChars = (k : Int) + 1 ∧
    (isr c s).numChars ≤ 4 ∧
    (∀ i : Nat, i ≠ k → (isr c s).attempt[i]? = s.attempt[i]?) ∧
    (isr c s).attempt.length = s.attempt.length ∧
    (isr c s).row = s.row ∧
    (∀ t : State, ∀ i : Nat, i < 4 → (main_loop t).attempt[i]? = t.attempt[i]?) := by
  obtain ⟨ch, hch, -, e⟩ := isr_effect c s hr
  have hatt : (isr c s).attempt = s.attempt.set k ch := by
    rw [e]; simp [storeAttempt, hk]
  refine ⟨⟨ch, hch, hatt, ?_⟩, ?_, ?_, ?_, ?_, isr_row c s, ?_⟩
  · intro hlt
    rw [hatt]
    exact List.getElem?_set_self hlt
  · rw [isr_numChars, hk]
  · rw [isr_numChars, hk]; omega
  · intro i hi
    rw [hatt]
    exact List.getElem?_set_ne (Ne.symm hi)
  · rw [hatt, List.length_set]
  · intro t i hi
    rcases main_loop_attempt t with h | h
    · rw [h]
    · rw [h]
      exact List.getElem?_set_ne (by omega)

/-- C14, at power-on: the handler `c3isr` stores '0' in slot 0, counts to 1 and leaves the
row at 0. -/
theorem C14_key_event_frame_witness :
    (isr .c3 powerOn).attempt = ['0', NUL, NUL, NUL, NUL] ∧
    (isr .c3 powerOn).numChars = 1 ∧ (isr .c3 powerOn).row = 0 := by
  have h := C14_key_event_frame powerOn .c3 0 (by decide) rfl (by decide)
  exact ⟨by decide, h.2.1, h.2.2.2.2.2.1⟩

/-- C15. Polling is a no-op until four keys are in: from every state with `numChars != 4`
a loop pass makes no display call and leaves `numChars`, the whole buffer and the
indicator register unchanged; every operation it performs is a row drive or the 50 ms
pause, and from a row in 0..3 it performs exactly the drive of the new row's line and
the pause, with `row` advanced by one modulo four. -/
theorem C15_polling_no_op (s : State) (h : s.numChars ≠ 4) :
    displayedSince s (main_loop s) = [] ∧
    (main_loop s).numChars = s.numChars ∧
    (main_loop s).attempt = s.attempt ∧
    (main_loop s).GPIOE_ODR = s.GPIOE_ODR ∧
    (∀ e ∈ eventsSince s (main_loop s),
      (∃ v : Nat, e = .rowDrive v) ∨ e = .threadSleepFor 50) ∧
    ((s.row = 0 ∨ s.row = 1 ∨ s.row = 2 ∨ s.row = 3) →
      eventsSince s (main_loop s) =
        [.rowDrive (main_loop s).GPIOC_ODR, .threadSleepFor 50] ∧
      (main_loop s).row = (s.row + 1) % 4) := by
  obtain ⟨ha, hn, hg⟩ := scanRow_frame s
  have hm := main_loop_idle s h
  refine ⟨?_, ?_, ?_, ?_, ?_, ?_⟩
  · obtain ⟨evs, he, hd, -⟩ := scanRow_trace s
    unfold displayedSince
    rw [hm]
    simp [thread_sleep_for, he, hd, Event.isDisplay]
  · rw [hm]; simpa [thread_sleep_for] using hn
  · rw [hm]; simpa [thread_sleep_for] using ha
  · rw [hm]; simpa [thread_sleep_for] using hg
  · unfold eventsSince
    rw [hm]
    unfold scanRow driveRow thread_sleep_for
    split_ifs <;> simp
  · intro hr
    constructor
    · unfold eventsSince
      rw [hm]
      simp [thread_sleep_for, scanRow_drive s hr]
    · rw [(main_loop_row s).1, (scanRow_row s hr).1]

/-- C15, at power-on: the first loop pass drives 0x400, pauses 50 ms and shows nothing. -/
theorem C15_polling_no_op_witness :
    displayedSince powerOn (main_loop powerOn) = [] ∧
    eventsSince powerOn (main_loop powerOn) = [.rowDrive 0x400, .threadSleepFor 50] := by
  have h := C15_polling_no_op powerOn (by decide)
  refine ⟨h.1, ?_⟩
  rw [(h.2.2.2.2.2 (by decide)).1]
  decide

/-! ## Row invariant and over-count -/

set_option maxRecDepth 100000 in
/-- C17 as stated fails: in the execution `edgeBeforeReset`, whose stores are all inside
the array, the fifth edge is serviced inside the evaluation and leaves `numChars` at 5,
above 4, with the main thread before line 125; the next statement sets `numChars` back to
0 and the evaluation goes on to print its verdict and to pause. -/
theorem C17_overcount_reset_by_line_125 :
    storesInRange edgeBeforeReset start = true ∧
    (runAt edgeBeforeReset start).1 = .l125 ∧
    (runAt edgeBeforeReset start).2.numChars = 5 ∧
    (runAt [.stmt] (runAt edgeBeforeReset start)).2.numChars = 0 ∧
    eventsSince (runAt edgeBeforeReset start).2
        (runAt (List.replicate 9 .stmt) (runAt edgeBeforeReset start)).2 =
      [.countReset, .lcdSetCursor 0 1, .lcdPrint "Locked!", .threadSleepFor 5000,
        .lcdClear, .lcdPrint "Enter passcode:", .threadSleepFor 50] ∧
    ¬ (∀ cfg : Pc × State, ReachableAt cfg → 4 < cfg.2.numChars →
        ∀ ms : List Micro, (runAt ms cfg).2.numChars ≠ 0) := by
  refine ⟨by decide, by decide, by decide, by decide, by decide, ?_⟩
  intro h
  exact h (runAt edgeBeforeReset start) ⟨edgeBeforeReset, rfl⟩ (by decide) [.stmt]
    (by decide)

/-- C17, amended. Over-count persists over loop passes: with `numChars` an unbounded
integer, from every state with `numChars > 4` a loop pass in which no key event is
serviced performs no evaluation (no display call, no terminator store, no reset, no
5000 ms pause) and leaves `numChars` as it is; hence after any number of such passes
`numChars` still has its value above 4, never 0, and no operation of an evaluation has
been performed. -/
theorem C17_overcount_idle_passes (s : State) (h : 4 < s.numChars) :
    (main_loop s).numChars = s.numChars ∧
    displayedSince s (main_loop s) = [] ∧
    (eventsSince s (main_loop s)).filter Event.isEvaluation = [] ∧
    ∀ n : Nat,
      (main_loop^[n] s).numChars = s.numChars ∧
      (main_loop^[n] s).numChars ≠ 0 ∧
      (eventsSince s (main_loop^[n] s)).filter Event.isEvaluation = [] ∧
      displayedSince s (main_loop^[n] s) = [] := by
  have hne : s.numChars ≠ 4 := by omega
  have hsplit : ∀ evs : List Event,
      evs.filter (fun e => e.isEvaluation || e.isDisplay) = [] →
      evs.filter Event.isEvaluation = [] ∧ evs.filter Event.isDisplay = [] := by
    intro evs hev
    rw [List.filter_eq_nil_iff] at hev
    constructor <;> rw [List.filter_eq_nil_iff] <;> intro e he hd <;>
      exact hev e he (by simp [hd])
  have hrun : ∀ n : Nat,
      (main_loop^[n] s).numChars = s.numChars ∧
      (eventsSince s (main_loop^[n] s)).filter Event.isEvaluation = [] ∧
      displayedSince s (main_loop^[n] s) = [] := by
    intro n
    obtain ⟨hnum, evs, he, hf⟩ := iterate_idle n s hne
    refine ⟨hnum, ?_⟩
    unfold displayedSince eventsSince
    rw [he, List.drop_left]
    exact hsplit evs hf
  have h1 := hrun 1
  refine ⟨h1.1, h1.2.2, h1.2.1, fun n => ?_⟩
  obtain ⟨hnum, hf, hd⟩ := hrun n
  exact ⟨hnum, by omega, hf, hd⟩

/-- C17 amended, at the state after five key events from power-on: three loop passes
later the count is still 5 and nothing has been shown. -/
theorem C17_overcount_idle_passes_witness :
    (run [.key .c3, .key .c3, .key .c3, .key .c3, .key .c3] powerOn).numChars = 5 ∧
    (main_loop^[3]
      (run [.key .c3, .key .c3, .key .c3, .key .c3, .key .c3] powerOn)).numChars = 5 ∧
    displayedSince (run [.key .c3, .key .c3, .key .c3, .key .c3, .key .c3] powerOn)
      (main_loop^[3]
        (run [.key .c3, .key .c3, .key .c3, .key .c3, .key .c3] powerOn)) = [] := by
  have h := (C17_overcount_idle_passes
    (run [.key .c3, .key .c3, .key .c3, .key .c3, .key .c3] powerOn) (by decide)).2.2.2 3
  have h5 : (run [.key .c3, .key .c3, .key .c3, .key .c3, .key .c3] powerOn).numChars = 5 := by
    decide
  exact ⟨h5, by rw [h.1, h5], h.2.2.2⟩

/-! ## Frame of the indicator register -/

/-- C18 as stated fails: with bit 8 set in `GPIOE->ODR` (value 0x100), `lightLEDs(0)`
leaves 0x4 and the end-of-cycle reset leaves 0, so bit 8, which is none of the indicator
bits 2..6, does not keep its value. -/
theorem C18_bit_8_cleared :
    (lightLEDs 0 { powerOn with GPIOE_ODR := 0x100 }).GPIOE_ODR = 0x4 ∧
    (evalEnd { powerOn with GPIOE_ODR := 0x100 }).GPIOE_ODR = 0 ∧
    ¬ (∀ (s : State) (n : Int) (i : Nat), i < 2 ∨ 6 < i →
        (lightLEDs n s).GPIOE_ODR.testBit i = s.GPIOE_ODR.testBit i) ∧
    ¬ (∀ (s : State) (i : Nat), i < 2 ∨ 6 < i →
        (evalEnd s).GPIOE_ODR.testBit i = s.GPIOE_ODR.testBit i) := by
  refine ⟨by decide, by decide, ?_, ?_⟩
  · intro h
    have h8 := h { powerOn with GPIOE_ODR := 0x100 } 0 8 (by omega)
    revert h8
    decide
  · intro h
    have h8 := h { powerOn with GPIOE_ODR := 0x100 } 8 (by omega)
    revert h8
    decide

/-- C18, amended. Indicator register frame: for every prior value of `GPIOE->ODR` below
0x100, that is with no bit from 8 up set, and every `n`, `lightLEDs(n)` changes only the
indicator bits 2..6: every other bit has the same value after the call as before, and the
same holds for the end-of-cycle reset of the main loop; both leave a value below 0x100
again.  Every value the register takes from power-on, with key events serviced between
any two statements, is below 0x100. -/
theorem C18_indicator_frame (s : State) (n : Int) (h : s.GPIOE_ODR < 0x100) :
    (∀ i : Nat, i < 2 ∨ 6 < i →
      (lightLEDs n s).GPIOE_ODR.testBit i = s.GPIOE_ODR.testBit i) ∧
    (∀ i : Nat, i < 2 ∨ 6 < i →
      (evalEnd s).GPIOE_ODR.testBit i = s.GPIOE_ODR.testBit i) ∧
    (lightLEDs n s).GPIOE_ODR < 0x100 ∧ (evalEnd s).GPIOE_ODR < 0x100 ∧
    (∀ cfg : Pc × State, ReachableAt cfg → cfg.2.GPIOE_ODR < 0x100) := by
  have hm : (if n = 0 then 0x4 else if n = 1 then 0x8 else if n = 2 then 0x10
      else if strcmp s.attempt password = some 0 then 0x20 else 0x40) ∈ indicatorBits := by
    split_ifs <;> decide
  have he : (evalEnd s).GPIOE_ODR = (s.GPIOE_ODR &&& 0x83) ||| 0 := by
    simp [evalEnd, lcd_clear, lcd_print]
  have hlow : ∀ x : Nat, (∀ i : Nat, 8 ≤ i → x.testBit i = false) → x < 0x100 :=
    fun x hx => Nat.lt_pow_two_of_testBit x hx
  have hhigh : ∀ i : Nat, 8 ≤ i → s.GPIOE_ODR.testBit i = false := by
    intro i hi
    have hpow : (2 : Nat) ^ 8 ≤ 2 ^ i := Nat.pow_le_pow_right (by decide) hi
    exact Nat.testBit_lt_two_pow (by omega)
  refine ⟨?_, ?_, ?_, ?_, ?_⟩
  · intro i hi
    rw [lightLEDs_GPIOE]
    exact testBit_frame_low _ _ i h (Or.inr hm) hi
  · intro i hi
    rw [he]
    exact testBit_frame_low _ _ i h (Or.inl rfl) hi
  · apply hlow
    intro i hi
    rw [lightLEDs_GPIOE, testBit_frame_low _ _ i h (Or.inr hm) (by omega)]
    exact hhigh i hi
  · apply hlow
    intro i hi
    rw [he, testBit_frame_low _ _ i h (Or.inl rfl) (by omega)]
    exact hhigh i hi
  · intro cfg hcfg
    have hmem := reachableAt_GPIOE cfg hcfg
    revert hmem
    generalize cfg.2.GPIOE_ODR = x
    revert x
    decide

/-- C18 amended, at the state after three key events from power-on, where the blue
indicator (0x10) is lit: `lightLEDs(3)` and the reset leave the bits 0, 1 and 7 as they
were. -/
theorem C18_indicator_frame_witness :
    (run [.key .c3, .key .c3, .key .c3] powerOn).GPIOE_ODR = 0x10 ∧
    (lightLEDs 3 (run [.key .c3, .key .c3, .key .c3] powerOn)).GPIOE_ODR.testBit 7 =
      (run [.key .c3, .key .c3, .key .c3] powerOn).GPIOE_ODR.testBit 7 ∧
    (evalEnd (run [.key .c3, .key .c3, .key .c3] powerOn)).GPIOE_ODR.testBit 0 =
      (run [.key .c3, .key .c3, .key .c3] powerOn).GPIOE_ODR.testBit 0 := by
  have h := C18_indicator_frame (run [.key .c3, .key .c3, .key .c3] powerOn) 3 (by decide)
  exact ⟨by decide, h.1 7 (by omega), h.2.1 0 (by omega)⟩

end SecurityKeypad
